import Mathlib

/-!
Verification of the grid-to-solid meshing core of the 2D-to-3D converter
(`advanced_converter.py`).  Geometry is embedded over exact rationals;
the binary STL writer is embedded at the byte-layout level with the
IEEE-754 float encoder kept abstract (only its 4-byte width matters for
the layout claims), and the per-face normal computation is embedded over
the reals.
-/

namespace Converter

/-- Triple of rationals modelling a numpy 3-vector of floats. -/
abbrev V3 := ℚ × ℚ × ℚ

/-- Componentwise subtraction, `v - w` on numpy arrays. -/
def vsub (a b : V3) : V3 := (a.1 - b.1, a.2.1 - b.2.1, a.2.2 - b.2.2)

/-- `np.cross` of two 3-vectors. -/
def cross (a b : V3) : V3 :=
  (a.2.1 * b.2.2 - a.2.2 * b.2.1,
   a.2.2 * b.1 - a.1 * b.2.2,
   a.1 * b.2.1 - a.2.1 * b.1)

/-- A 2D height grid: `height_data` with `rows, cols = height_data.shape`
and entry `data i j = height_data[i, j]` (only indices `i < rows`,
`j < cols` are ever read). -/
structure Grid where
  rows : ℕ
  cols : ℕ
  data : ℕ → ℕ → ℚ

/-- Top-surface vertex block of `MeshGenerator.heightmap_to_mesh`:
for each `i < rows`, `j < cols`, the vertex
`(j * pixel_size, i * pixel_size, height_data[i, j])`. -/
def topVertices (g : Grid) (pixel_size : ℚ) : List V3 :=
  (List.range g.rows).flatMap fun i =>
    (List.range g.cols).map fun (j : ℕ) =>
      ((j : ℚ) * pixel_size, (i : ℚ) * pixel_size, g.data i j)

/-- Bottom-surface vertex block: same x, y, with `z = base_height`. -/
def bottomVertices (g : Grid) (pixel_size base_height : ℚ) : List V3 :=
  (List.range g.rows).flatMap fun i =>
    (List.range g.cols).map fun (j : ℕ) =>
      ((j : ℚ) * pixel_size, (i : ℚ) * pixel_size, base_height)

/-- Top-surface faces: for each cell, `idx = i * cols + j`, the two
triangles `[idx, idx+1, idx+cols]` and `[idx+1, idx+cols+1, idx+cols]`. -/
def topFaces (rows cols : ℕ) : List (ℕ × ℕ × ℕ) :=
  (List.range (rows - 1)).flatMap fun i =>
    (List.range (cols - 1)).flatMap fun j =>
      let idx := i * cols + j
      [(idx, idx + 1, idx + cols), (idx + 1, idx + cols + 1, idx + cols)]

/-- Bottom-surface faces (reversed winding), offset by `rows * cols`. -/
def bottomFaces (rows cols : ℕ) : List (ℕ × ℕ × ℕ) :=
  (List.range (rows - 1)).flatMap fun i =>
    (List.range (cols - 1)).flatMap fun j =>
      let idx := i * cols + j + rows * cols
      [(idx, idx + cols, idx + 1), (idx + 1, idx + cols, idx + cols + 1)]

/-- Left-edge wall faces. -/
def leftFaces (rows cols : ℕ) : List (ℕ × ℕ × ℕ) :=
  (List.range (rows - 1)).flatMap fun i =>
    let top_idx := i * cols
    let bot_idx := top_idx + rows * cols
    [(top_idx, bot_idx, top_idx + cols), (bot_idx, bot_idx + cols, top_idx + cols)]

/-- Right-edge wall faces. -/
def rightFaces (rows cols : ℕ) : List (ℕ × ℕ × ℕ) :=
  (List.range (rows - 1)).flatMap fun i =>
    let top_idx := i * cols + cols - 1
    let bot_idx := top_idx + rows * cols
    [(top_idx, top_idx + cols, bot_idx), (bot_idx, top_idx + cols, bot_idx + cols)]

/-- Front-edge wall faces. -/
def frontFaces (rows cols : ℕ) : List (ℕ × ℕ × ℕ) :=
  (List.range (cols - 1)).flatMap fun j =>
    let top_idx := j
    let bot_idx := top_idx + rows * cols
    [(top_idx, top_idx + 1, bot_idx), (bot_idx, top_idx + 1, bot_idx + 1)]

/-- Back-edge wall faces. -/
def backFaces (rows cols : ℕ) : List (ℕ × ℕ × ℕ) :=
  (List.range (cols - 1)).flatMap fun j =>
    let top_idx := (rows - 1) * cols + j
    let bot_idx := top_idx + rows * cols
    [(top_idx, bot_idx, top_idx + 1), (bot_idx, bot_idx + 1, top_idx + 1)]

/-- Face list of `MeshGenerator.heightmap_to_mesh`, in append order of the
source's six loops. -/
def heightmapFaces (rows cols : ℕ) : List (ℕ × ℕ × ℕ) :=
  topFaces rows cols ++ bottomFaces rows cols ++ leftFaces rows cols ++
    rightFaces rows cols ++ frontFaces rows cols ++ backFaces rows cols

/-- `MeshGenerator.heightmap_to_mesh`: vertex list (top block then bottom
block) and face list. -/
def heightmap_to_mesh (g : Grid) (pixel_size base_height : ℚ) :
    List V3 × List (ℕ × ℕ × ℕ) :=
  (topVertices g pixel_size ++ bottomVertices g pixel_size base_height,
   heightmapFaces g.rows g.cols)

/-- The 80-byte STL header written by `STLWriter.write_stl`:
the ASCII bytes of the 27-character banner padded with `80 - 27` spaces. -/
def stl_header : List ℕ :=
  ("Enhanced 3D Model Converter".data.map Char.toNat) ++ List.replicate (80 - 27) 32

/-- Little-endian 4-byte encoding used by `struct.pack('<I', n)`. -/
def pack_u32le (n : ℕ) : List ℕ :=
  [n % 256, n / 256 % 256, n / 2 ^ 16 % 256, n / 2 ^ 24 % 256]

/-- Little-endian 2-byte encoding used by `struct.pack('<H', n)`. -/
def pack_u16le (n : ℕ) : List ℕ := [n % 256, n / 256 % 256]

/-- Per-face normal computed by `STLWriter.write_stl`:
`normal = np.cross(v1 - v0, v2 - v0)`, `norm = np.linalg.norm(normal)`,
then `normal / norm` if `norm > 0` else `[0, 0, 1]`.  The square root and
division are modelled exactly over the reals. -/
noncomputable def write_stl_normal (v0 v1 v2 : V3) : ℝ × ℝ × ℝ :=
  let n := cross (vsub v1 v0) (vsub v2 v0)
  let norm : ℝ := Real.sqrt ((n.1 ^ 2 + n.2.1 ^ 2 + n.2.2 ^ 2 : ℚ))
  if 0 < norm then ((n.1 : ℝ) / norm, (n.2.1 : ℝ) / norm, (n.2.2 : ℝ) / norm)
  else (0, 0, 1)

/-- The 50-byte record `STLWriter.write_stl` emits per face: three normal
floats, nine vertex floats, and the trailing `struct.pack('<H', 0)`.
`f32` is the (abstract) 4-byte IEEE-754 single encoder of
`struct.pack('<f', x)`; out-of-range indices are modelled by a default
vertex, the source never produces them. -/
noncomputable def faceRecord (f32 : ℝ → List ℕ) (vertices : List V3)
    (face : ℕ × ℕ × ℕ) : List ℕ :=
  let v0 := vertices.getD face.1 (0, 0, 0)
  let v1 := vertices.getD face.2.1 (0, 0, 0)
  let v2 := vertices.getD face.2.2 (0, 0, 0)
  let n := write_stl_normal v0 v1 v2
  f32 n.1 ++ f32 n.2.1 ++ f32 n.2.2 ++
    f32 (v0.1 : ℝ) ++ f32 (v0.2.1 : ℝ) ++ f32 (v0.2.2 : ℝ) ++
    f32 (v1.1 : ℝ) ++ f32 (v1.2.1 : ℝ) ++ f32 (v1.2.2 : ℝ) ++
    f32 (v2.1 : ℝ) ++ f32 (v2.2.1 : ℝ) ++ f32 (v2.2.2 : ℝ) ++
    pack_u16le 0

/-- Byte stream produced by `STLWriter.write_stl`: header, 4-byte
little-endian face count, then one 50-byte record per face. -/
noncomputable def write_stl (f32 : ℝ → List ℕ) (vertices : List V3)
    (faces : List (ℕ × ℕ × ℕ)) : List ℕ :=
  stl_header ++ pack_u32le faces.length ++ faces.flatMap (faceRecord f32 vertices)

/-- `np.unique`: the distinct values of a list, sorted ascending. -/
def np_unique (colors : List ℤ) : List ℤ :=
  colors.dedup.mergeSort (fun a b => decide (a ≤ b))

/-- The faces selected by `mask = colors == color_id; faces[mask]`
(for parallel `faces` and `colors`). -/
def color_select (faces : List (ℕ × ℕ × ℕ)) (colors : List ℤ) (color_id : ℤ) :
    List (ℕ × ℕ × ℕ) :=
  ((faces.zip colors).filter (fun p => p.2 = color_id)).map Prod.fst

/-- `STLWriter.write_multi_material_stl`: for each unique color id, the
sub-mesh written (shared vertex sequence plus the selected faces),
emitted only when at least one face carries the id. -/
def write_multi_material_stl (vertices : List V3) (faces : List (ℕ × ℕ × ℕ))
    (colors : List ℤ) : List (ℤ × (List V3 × List (ℕ × ℕ × ℕ))) :=
  (np_unique colors).filterMap fun color_id =>
    let color_faces := color_select faces colors color_id
    if 0 < color_faces.length then some (color_id, (vertices, color_faces))
    else none

/-- `MultiMaterialConverter.separate_colors`, after the external image
decode/resize (out of core scope): the two `np.where` height maps from a
grayscale grid and a threshold. -/
def separate_colors (img : List (List ℕ)) (threshold : ℕ) :
    List (List ℕ) × List (List ℕ) :=
  (img.map fun row => row.map fun v => if threshold ≤ v then v else 0,
   img.map fun row => row.map fun v => if v < threshold then 255 - v else 0)

/-- `arr.max()` of a nonnegative 2D numpy array (0 for an empty grid,
where numpy itself would raise). -/
def npmax (g : List (List ℕ)) : ℕ :=
  (g.map fun row => row.foldr max 0).foldr max 0

/-- The output-file map of `MultiMaterialConverter.convert` (threshold
fixed at the source's default 128): each material's STL is written only
when its separated grid has a positive maximum. -/
def multi_material_convert (img : List (List ℕ)) (stem : String) :
    List (String × String) :=
  let mats := separate_colors img 128
  (if 0 < npmax mats.1 then
    [("Material_1_Bright", stem ++ "_material_1_bright.stl")] else []) ++
  (if 0 < npmax mats.2 then
    [("Material_2_Dark", stem ++ "_material_2_dark.stl")] else [])

/-- Directed edges of a face list, in traversal order. -/
def directedEdges (faces : List (ℕ × ℕ × ℕ)) : List (ℕ × ℕ) :=
  faces.flatMap fun f => [(f.1, f.2.1), (f.2.1, f.2.2), (f.2.2, f.1)]

/-- An undirected edge. -/
def e (x y : ℕ) : Sym2 ℕ := Sym2.mk (x, y)

/-- Undirected edges of a face list. -/
def undirectedEdges (faces : List (ℕ × ℕ × ℕ)) : List (Sym2 ℕ) :=
  faces.flatMap fun f => [e f.1 f.2.1, e f.2.1 f.2.2, e f.2.2 f.1]

/-- Index of the top-surface vertex at grid position `(i, j)`. -/
def topIx (c i j : ℕ) : ℕ := i * c + j

/-- Index of the bottom-surface vertex at grid position `(i, j)`. -/
def botIx (r c i j : ℕ) : ℕ := r * c + i * c + j

/-- Horizontal top-surface edge from `(i, j)` to `(i, j+1)`. -/
def eH (c i j : ℕ) : Sym2 ℕ := e (topIx c i j) (topIx c i (j + 1))

/-- Vertical top-surface edge from `(i, j)` to `(i+1, j)`. -/
def eV (c i j : ℕ) : Sym2 ℕ := e (topIx c i j) (topIx c (i + 1) j)

/-- Diagonal top-surface edge of cell `(i, j)`. -/
def eD (c i j : ℕ) : Sym2 ℕ := e (topIx c i (j + 1)) (topIx c (i + 1) j)

/-- Horizontal bottom-surface edge. -/
def eHB (r c i j : ℕ) : Sym2 ℕ := e (botIx r c i j) (botIx r c i (j + 1))

/-- Vertical bottom-surface edge. -/
def eVB (r c i j : ℕ) : Sym2 ℕ := e (botIx r c i j) (botIx r c (i + 1) j)

/-- Diagonal bottom-surface edge of cell `(i, j)`. -/
def eDB (r c i j : ℕ) : Sym2 ℕ := e (botIx r c i (j + 1)) (botIx r c (i + 1) j)

/-- Wall vertical edge joining top and bottom vertices at `(i, j)`. -/
def eP (r c i j : ℕ) : Sym2 ℕ := e (topIx c i j) (botIx r c i j)

/-- Left-wall diagonal edge at row `i`. -/
def eDL (r c i : ℕ) : Sym2 ℕ := e (botIx r c i 0) (topIx c (i + 1) 0)

/-- Right-wall diagonal edge at row `i`. -/
def eDR (r c i : ℕ) : Sym2 ℕ :=
  e (topIx c (i + 1) (c - 1)) (botIx r c i (c - 1))

/-- Front-wall diagonal edge at column `j`. -/
def eDF (r c j : ℕ) : Sym2 ℕ := e (topIx c 0 (j + 1)) (botIx r c 0 j)

/-- Back-wall diagonal edge at column `j`. -/
def eDK (r c j : ℕ) : Sym2 ℕ :=
  e (botIx r c (r - 1) j) (topIx c (r - 1) (j + 1))

/-- Undirected edges of the two top-surface triangles of cell `(i, j)`,
in traversal order. -/
def cellTop (c i j : ℕ) : Multiset (Sym2 ℕ) :=
  (([eH c i j, eD c i j, eV c i j, eV c i (j + 1), eH c (i + 1) j,
    eD c i j] : List (Sym2 ℕ)) : Multiset (Sym2 ℕ))

/-- Undirected edges of the two bottom-surface triangles of cell `(i, j)`. -/
def cellBot (r c i j : ℕ) : Multiset (Sym2 ℕ) :=
  (([eVB r c i j, eDB r c i j, eHB r c i j, eDB r c i j, eHB r c (i + 1) j,
    eVB r c i (j + 1)] : List (Sym2 ℕ)) : Multiset (Sym2 ℕ))

/-- Undirected edges of the two left-wall triangles at row `i`. -/
def cellLeft (r c i : ℕ) : Multiset (Sym2 ℕ) :=
  (([eP r c i 0, eDL r c i, eV c i 0, eVB r c i 0, eP r c (i + 1) 0,
    eDL r c i] : List (Sym2 ℕ)) : Multiset (Sym2 ℕ))

/-- Undirected edges of the two right-wall triangles at row `i`. -/
def cellRight (r c i : ℕ) : Multiset (Sym2 ℕ) :=
  (([eV c i (c - 1), eDR r c i, eP r c i (c - 1), eDR r c i,
    eP r c (i + 1) (c - 1), eVB r c i (c - 1)] : List (Sym2 ℕ)) :
    Multiset (Sym2 ℕ))

/-- Undirected edges of the two front-wall triangles at column `j`. -/
def cellFront (r c j : ℕ) : Multiset (Sym2 ℕ) :=
  (([eH c 0 j, eDF r c j, eP r c 0 j, eDF r c j, eP r c 0 (j + 1),
    eHB r c 0 j] : List (Sym2 ℕ)) : Multiset (Sym2 ℕ))

/-- Undirected edges of the two back-wall triangles at column `j`. -/
def cellBack (r c j : ℕ) : Multiset (Sym2 ℕ) :=
  (([eP r c (r - 1) j, eDK r c j, eH c (r - 1) j, eHB r c (r - 1) j,
    eP r c (r - 1) (j + 1), eDK r c j] : List (Sym2 ℕ)) : Multiset (Sym2 ℕ))

/-- The set of undirected edges of the heightmap mesh, each listed once:
the three top-surface families, the three bottom-surface families, the
four wall diagonal families, and the boundary wall verticals (left and
right columns in full, front and back rows without their corners). -/
def meshEdgeSet (r c : ℕ) : Multiset (Sym2 ℕ) :=
  (∑ i in Finset.range r, ∑ j in Finset.range (c - 1), ({eH c i j} : Multiset (Sym2 ℕ)))
  + (∑ i in Finset.range (r - 1), ∑ j in Finset.range c, ({eV c i j} : Multiset (Sym2 ℕ)))
  + (∑ i in Finset.range (r - 1), ∑ j in Finset.range (c - 1), ({eD c i j} : Multiset (Sym2 ℕ)))
  + (∑ i in Finset.range r, ∑ j in Finset.range (c - 1), ({eHB r c i j} : Multiset (Sym2 ℕ)))
  + (∑ i in Finset.range (r - 1), ∑ j in Finset.range c, ({eVB r c i j} : Multiset (Sym2 ℕ)))
  + (∑ i in Finset.range (r - 1), ∑ j in Finset.range (c - 1), ({eDB r c i j} : Multiset (Sym2 ℕ)))
  + (∑ i in Finset.range (r - 1), ({eDL r c i} : Multiset (Sym2 ℕ)))
  + (∑ i in Finset.range (r - 1), ({eDR r c i} : Multiset (Sym2 ℕ)))
  + (∑ j in Finset.range (c - 1), ({eDF r c j} : Multiset (Sym2 ℕ)))
  + (∑ j in Finset.range (c - 1), ({eDK r c j} : Multiset (Sym2 ℕ)))
  + (∑ i in Finset.range r, ({eP r c i 0} : Multiset (Sym2 ℕ)))
  + (∑ i in Finset.range r, ({eP r c i (c - 1)} : Multiset (Sym2 ℕ)))
  + (∑ j in Finset.range (c - 2), ({eP r c 0 (j + 1)} : Multiset (Sym2 ℕ)))
  + (∑ j in Finset.range (c - 2), ({eP r c (r - 1) (j + 1)} : Multiset (Sym2 ℕ)))

/-! ### Vertex and face counts -/

theorem length_flatMap_const {α : Type} (n k : ℕ) (f : ℕ → List α)
    (h : ∀ i, (f i).length = k) : ((List.range n).flatMap f).length = n * k := by
  induction n with
  | zero => simp
  | succ m ih =>
      rw [List.range_succ, List.flatMap_append, List.length_append, ih,
        Nat.succ_mul]
      simp [h]

theorem topVertices_length (g : Grid) (s : ℚ) :
    (topVertices g s).length = g.rows * g.cols := by
  exact length_flatMap_const _ _ _ fun i => by simp

theorem bottomVertices_length (g : Grid) (s b : ℚ) :
    (bottomVertices g s b).length = g.rows * g.cols := by
  exact length_flatMap_const _ _ _ fun i => by simp

theorem heightmapFaces_length (r c : ℕ) :
    (heightmapFaces r c).length =
      4 * (r - 1) * (c - 1) + 4 * (r - 1) + 4 * (c - 1) := by
  have ht : (topFaces r c).length = (r - 1) * ((c - 1) * 2) :=
    length_flatMap_const _ _ _ fun i =>
      length_flatMap_const _ _ _ fun j => rfl
  have hb : (bottomFaces r c).length = (r - 1) * ((c - 1) * 2) :=
    length_flatMap_const _ _ _ fun i =>
      length_flatMap_const _ _ _ fun j => rfl
  have hl : (leftFaces r c).length = (r - 1) * 2 :=
    length_flatMap_const _ _ _ fun i => rfl
  have hr : (rightFaces r c).length = (r - 1) * 2 :=
    length_flatMap_const _ _ _ fun i => rfl
  have hf : (frontFaces r c).length = (c - 1) * 2 :=
    length_flatMap_const _ _ _ fun j => rfl
  have hk : (backFaces r c).length = (c - 1) * 2 :=
    length_flatMap_const _ _ _ fun j => rfl
  unfold heightmapFaces
  simp only [List.length_append, ht, hb, hl, hr, hf, hk]
  ring

theorem heightmap_counts (g : Grid) (s b : ℚ) :
    (heightmap_to_mesh g s b).1.length = 2 * g.rows * g.cols ∧
      (heightmap_to_mesh g s b).2.length =
        4 * (g.rows - 1) * (g.cols - 1) + 4 * (g.rows - 1) + 4 * (g.cols - 1) := by
  constructor
  · show (topVertices g s ++ bottomVertices g s b).length = _
    rw [List.length_append, topVertices_length, bottomVertices_length]
    ring
  · exact heightmapFaces_length g.rows g.cols

/-- Claim C2: for every R-by-C height grid with R ≥ 2 and C ≥ 2,
`MeshGenerator.heightmap_to_mesh` returns exactly `2*R*C` vertices and
exactly `4*(R-1)*(C-1) + 4*(R-1) + 4*(C-1)` faces. -/
theorem mesh_vertex_and_face_counts (g : Grid) (s b : ℚ)
    (hr : 2 ≤ g.rows) (hc : 2 ≤ g.cols) :
    (heightmap_to_mesh g s b).1.length = 2 * g.rows * g.cols ∧
      (heightmap_to_mesh g s b).2.length =
        4 * (g.rows - 1) * (g.cols - 1) + 4 * (g.rows - 1) + 4 * (g.cols - 1) :=
  heightmap_counts g s b

/-- Witness for C2: the 2-by-2 all-zero grid yields 8 vertices and
12 faces. -/
theorem mesh_vertex_and_face_counts_witness :
    (heightmap_to_mesh ⟨2, 2, fun _ _ => 0⟩ 1 0).1.length = 8 ∧
      (heightmap_to_mesh ⟨2, 2, fun _ _ => 0⟩ 1 0).2.length = 12 := by
  have h := mesh_vertex_and_face_counts ⟨2, 2, fun _ _ => 0⟩ 1 0
    (by norm_num) (by norm_num)
  exact ⟨h.1, h.2⟩

/-- Counterexample to C3: `heightmap_to_mesh` performs no grid-size
validation and raises nothing — no `InvalidGridError` exists in the
source.  On the 1-by-1 grid `[[5]]` it returns a mesh value: two
vertices and an empty face list. -/
theorem small_grid_returns_mesh_counterexample :
    (heightmap_to_mesh ⟨1, 1, fun _ _ => 5⟩ 1 0).1 =
        [((0 : ℚ), (0 : ℚ), (5 : ℚ)), ((0 : ℚ), (0 : ℚ), (0 : ℚ))] ∧
      (heightmap_to_mesh ⟨1, 1, fun _ _ => 5⟩ 1 0).2 = [] := by
  constructor
  · show topVertices _ _ ++ bottomVertices _ _ _ = _
    simp [topVertices, bottomVertices, List.range_succ]
  · rfl

/-- Claim C3 amended: for a grid with `rows < 2` or `cols < 2`,
`heightmap_to_mesh` does not fail (the source has no validation and no
`InvalidGridError`); it returns a mesh with `2*rows*cols` vertices and
`4*(rows-1)*(cols-1) + 4*(rows-1) + 4*(cols-1)` faces (truncated
subtraction), i.e. a degenerate sheet or an empty face list. -/
theorem small_grid_returns_mesh (g : Grid) (s b : ℚ)
    (h : g.rows < 2 ∨ g.cols < 2) :
    (heightmap_to_mesh g s b).1.length = 2 * g.rows * g.cols ∧
      (heightmap_to_mesh g s b).2.length =
        4 * (g.rows - 1) * (g.cols - 1) + 4 * (g.rows - 1) + 4 * (g.cols - 1) :=
  heightmap_counts g s b

/-- Witness for the amended C3 at the 1-by-1 grid: 2 vertices, 0 faces. -/
theorem small_grid_returns_mesh_witness :
    (heightmap_to_mesh ⟨1, 1, fun _ _ => 5⟩ 1 0).1.length = 2 ∧
      (heightmap_to_mesh ⟨1, 1, fun _ _ => 5⟩ 1 0).2.length = 0 := by
  have h := small_grid_returns_mesh ⟨1, 1, fun _ _ => 5⟩ 1 0 (Or.inl (by norm_num))
  exact ⟨h.1, h.2⟩

/-! ### Binary STL layout -/

theorem stl_header_length : stl_header.length = 80 := by decide

theorem pack_u32le_length (n : ℕ) : (pack_u32le n).length = 4 := rfl

theorem faceRecord_length (f32 : ℝ → List ℕ) (h4 : ∀ x, (f32 x).length = 4)
    (vertices : List V3) (face : ℕ × ℕ × ℕ) :
    (faceRecord f32 vertices face).length = 50 := by
  unfold faceRecord
  simp [h4, pack_u16le]

theorem faceRecord_trailing (f32 : ℝ → List ℕ) (h4 : ∀ x, (f32 x).length = 4)
    (vertices : List V3) (face : ℕ × ℕ × ℕ) :
    (faceRecord f32 vertices face).drop 48 = [0, 0] := by
  unfold faceRecord
  trans (pack_u16le 0)
  · exact List.drop_left' (by simp [List.length_append, h4])
  · rfl

/-- Claim C4: for every mesh, the byte stream of `STLWriter.write_stl` is
an exactly-80-byte header, a 4-byte little-endian face count, then one
50-byte record per face whose final two bytes encode 0, for a total of
exactly `84 + 50 * faceCount` bytes — for any 4-byte-per-float encoder
`f32` (as `struct.pack('<f', _)` is). -/
theorem write_stl_layout (f32 : ℝ → List ℕ) (h4 : ∀ x, (f32 x).length = 4)
    (vertices : List V3) (faces : List (ℕ × ℕ × ℕ)) :
    write_stl f32 vertices faces =
        stl_header ++ pack_u32le faces.length ++
          faces.flatMap (faceRecord f32 vertices) ∧
      stl_header.length = 80 ∧
      (pack_u32le faces.length).length = 4 ∧
      (∀ face ∈ faces, (faceRecord f32 vertices face).length = 50 ∧
        (faceRecord f32 vertices face).drop 48 = pack_u16le 0) ∧
      (write_stl f32 vertices faces).length = 84 + 50 * faces.length := by
  refine ⟨rfl, stl_header_length, pack_u32le_length _, ?_, ?_⟩
  · intro face _
    exact ⟨faceRecord_length f32 h4 vertices face,
      faceRecord_trailing f32 h4 vertices face⟩
  · show (stl_header ++ pack_u32le faces.length ++
      faces.flatMap (faceRecord f32 vertices)).length = _
    rw [List.length_append, List.length_append, stl_header_length,
      pack_u32le_length, List.length_flatMap]
    have hmap : (faces.map (List.length ∘ faceRecord f32 vertices)) =
        faces.map fun _ => 50 :=
      List.map_congr_left fun f _ => faceRecord_length f32 h4 vertices f
    rw [hmap, List.map_const', List.sum_replicate, smul_eq_mul]
    ring

/-- Witness for C4 with a concrete 4-byte encoder and an empty mesh. -/
theorem write_stl_layout_witness :
    (write_stl (fun _ => [0, 0, 0, 0]) [] []).length = 84 + 50 * 0 :=
  (write_stl_layout (fun _ => [0, 0, 0, 0]) (fun _ => rfl) [] []).2.2.2.2

/-! ### STL per-face normal policy -/

theorem prod3_eq_zero_iff (n : V3) :
    n = ((0 : ℚ), (0 : ℚ), (0 : ℚ)) ↔ n.1 = 0 ∧ n.2.1 = 0 ∧ n.2.2 = 0 := by
  constructor
  · intro h; rw [h]; exact ⟨rfl, rfl, rfl⟩
  · rintro ⟨h1, h2, h3⟩
    have : n = (n.1, n.2.1, n.2.2) := rfl
    rw [this, h1, h2, h3]

/-- Claim C5: the normal recorded by `STLWriter.write_stl` is the unit
vector that is a positive multiple of `cross(v1-v0, v2-v0)` whenever
that cross product is nonzero (i.e. `normalize(cross(v1-v0, v2-v0))`),
and is exactly `(0, 0, 1)` when the cross product is zero (degenerate
triangle); the computation is total, so a degenerate face never aborts
the write. -/
theorem write_stl_normal_spec (v0 v1 v2 : V3) :
    (cross (vsub v1 v0) (vsub v2 v0) = ((0 : ℚ), (0 : ℚ), (0 : ℚ)) →
      write_stl_normal v0 v1 v2 = ((0 : ℝ), (0 : ℝ), (1 : ℝ))) ∧
    (cross (vsub v1 v0) (vsub v2 v0) ≠ ((0 : ℚ), (0 : ℚ), (0 : ℚ)) →
      (write_stl_normal v0 v1 v2).1 ^ 2 + (write_stl_normal v0 v1 v2).2.1 ^ 2 +
          (write_stl_normal v0 v1 v2).2.2 ^ 2 = 1 ∧
        ∃ t : ℝ, 0 < t ∧ write_stl_normal v0 v1 v2 =
          (t * (cross (vsub v1 v0) (vsub v2 v0)).1,
           t * (cross (vsub v1 v0) (vsub v2 v0)).2.1,
           t * (cross (vsub v1 v0) (vsub v2 v0)).2.2)) := by
  set n : V3 := cross (vsub v1 v0) (vsub v2 v0) with hn
  set q : ℚ := n.1 ^ 2 + n.2.1 ^ 2 + n.2.2 ^ 2 with hq
  have hw : write_stl_normal v0 v1 v2 =
      if 0 < Real.sqrt ((q : ℚ) : ℝ) then
        ((n.1 : ℝ) / Real.sqrt ((q : ℚ) : ℝ),
         (n.2.1 : ℝ) / Real.sqrt ((q : ℚ) : ℝ),
         (n.2.2 : ℝ) / Real.sqrt ((q : ℚ) : ℝ))
      else (0, 0, 1) := rfl
  constructor
  · intro h0
    have hq0 : q = 0 := by
      rw [hq, (prod3_eq_zero_iff n).1 h0 |>.1,
        ((prod3_eq_zero_iff n).1 h0).2.1, ((prod3_eq_zero_iff n).1 h0).2.2]
      norm_num
    rw [hw, hq0]
    norm_num
  · intro hne
    have hqpos : 0 < q := by
      rcases lt_or_eq_of_le (by positivity : (0 : ℚ) ≤ q) with h | h
      · exact h
      · exfalso
        apply hne
        rw [prod3_eq_zero_iff]
        refine ⟨?_, ?_, ?_⟩ <;> nlinarith [sq_nonneg n.1, sq_nonneg n.2.1,
          sq_nonneg n.2.2, h.symm]
    have hcast : (0 : ℝ) < ((q : ℚ) : ℝ) := by exact_mod_cast hqpos
    have hnu : 0 < Real.sqrt ((q : ℚ) : ℝ) := Real.sqrt_pos.2 hcast
    have hsq : Real.sqrt ((q : ℚ) : ℝ) ^ 2 = ((q : ℚ) : ℝ) :=
      Real.sq_sqrt (le_of_lt hcast)
    rw [hw, if_pos hnu]
    constructor
    · rw [div_pow, div_pow, div_pow, hsq]
      rw [div_add_div_same, div_add_div_same]
      rw [show ((n.1 : ℝ) ^ 2 + (n.2.1 : ℝ) ^ 2 + (n.2.2 : ℝ) ^ 2) =
          ((q : ℚ) : ℝ) by rw [hq]; push_cast; ring]
      exact div_self (ne_of_gt hcast)
    · refine ⟨(Real.sqrt ((q : ℚ) : ℝ))⁻¹, inv_pos.2 hnu, ?_⟩
      rw [div_eq_inv_mul, div_eq_inv_mul, div_eq_inv_mul]

/-- Witness for C5: the fully degenerate face at the origin records the
fallback normal `(0, 0, 1)`. -/
theorem write_stl_normal_spec_witness :
    write_stl_normal ((0 : ℚ), (0 : ℚ), (0 : ℚ)) (0, 0, 0) (0, 0, 0) =
      ((0 : ℝ), (0 : ℝ), (1 : ℝ)) :=
  (write_stl_normal_spec (0, 0, 0) (0, 0, 0) (0, 0, 0)).1
    (by norm_num [cross, vsub])

/-! ### Dual-material split -/

/-- Claim C9: `MultiMaterialConverter.separate_colors` returns grid A
whose entry is the original value where `value >= threshold` and 0
otherwise, and grid B whose entry is `255 - value` where
`value < threshold` and 0 otherwise. -/
theorem separate_colors_spec (img : List (List ℕ)) (threshold i j v : ℕ)
    (hv : (img[i]?.bind fun row => row[j]?) = some v) :
    ((separate_colors img threshold).1[i]?.bind fun row => row[j]?) =
        some (if threshold ≤ v then v else 0) ∧
      ((separate_colors img threshold).2[i]?.bind fun row => row[j]?) =
        some (if v < threshold then 255 - v else 0) := by
  rcases Option.bind_eq_some.1 hv with ⟨row, hrow, hcell⟩
  constructor
  · show ((img.map fun row => row.map fun v =>
        if threshold ≤ v then v else 0)[i]?.bind fun row => row[j]?) = _
    rw [List.getElem?_map, hrow, Option.map_some', Option.some_bind,
      List.getElem?_map, hcell, Option.map_some']
  · show ((img.map fun row => row.map fun v =>
        if v < threshold then 255 - v else 0)[i]?.bind fun row => row[j]?) = _
    rw [List.getElem?_map, hrow, Option.map_some', Option.some_bind,
      List.getElem?_map, hcell, Option.map_some']

/-- Witness for C9: in grid `[[200, 50]]` with threshold 128, pixel
(0,0) maps to (200, 0) and pixel (0,1) maps to (0, 205). -/
theorem separate_colors_spec_witness :
    ((separate_colors [[200, 50]] 128).1[0]?.bind fun row => row[0]?) =
        some 200 ∧
      ((separate_colors [[200, 50]] 128).2[0]?.bind fun row => row[0]?) =
        some 0 ∧
      ((separate_colors [[200, 50]] 128).1[0]?.bind fun row => row[1]?) =
        some 0 ∧
      ((separate_colors [[200, 50]] 128).2[0]?.bind fun row => row[1]?) =
        some 205 := by
  have h1 := separate_colors_spec [[200, 50]] 128 0 0 200 (by decide)
  have h2 := separate_colors_spec [[200, 50]] 128 0 1 50 (by decide)
  exact ⟨h1.1, h1.2, h2.1, h2.2⟩

theorem foldr_max_pos_iff (row : List ℕ) :
    0 < row.foldr max 0 ↔ ∃ v ∈ row, 0 < v := by
  induction row with
  | nil => simp
  | cons a as iha =>
      simp only [List.foldr_cons, List.mem_cons]
      constructor
      · intro h
        rcases Nat.lt_or_ge 0 a with ha | ha
        · exact ⟨a, Or.inl rfl, ha⟩
        · have : 0 < as.foldr max 0 := by omega
          rcases iha.1 this with ⟨v, hvm, hv⟩
          exact ⟨v, Or.inr hvm, hv⟩
      · rintro ⟨v, rfl | hvm, hv⟩
        · omega
        · have := iha.2 ⟨v, hvm, hv⟩
          omega

theorem npmax_pos_iff (g : List (List ℕ)) :
    0 < npmax g ↔ ∃ row ∈ g, ∃ v ∈ row, 0 < v := by
  unfold npmax
  rw [foldr_max_pos_iff]
  constructor
  · rintro ⟨m, hm, hpos⟩
    rcases List.mem_map.1 hm with ⟨row, hrow, rfl⟩
    rcases (foldr_max_pos_iff row).1 hpos with ⟨v, hvm, hv⟩
    exact ⟨row, hrow, v, hvm, hv⟩
  · rintro ⟨row, hrow, v, hvm, hv⟩
    exact ⟨row.foldr max 0, List.mem_map_of_mem _ hrow,
      (foldr_max_pos_iff row).2 ⟨v, hvm, hv⟩⟩

theorem multi_material_convert_keys (img : List (List ℕ)) (stem : String) :
    (multi_material_convert img stem).map Prod.fst =
      (if 0 < npmax (separate_colors img 128).1 then ["Material_1_Bright"]
        else []) ++
      (if 0 < npmax (separate_colors img 128).2 then ["Material_2_Dark"]
        else []) := by
  unfold multi_material_convert
  by_cases h1 : 0 < npmax (separate_colors img 128).1 <;>
    by_cases h2 : 0 < npmax (separate_colors img 128).2 <;>
      simp [h1, h2]

/-- Claim C10: `MultiMaterialConverter.convert` writes a material's STL
only when that material's separated grid contains a positive value; if
every pixel is at or above the threshold (128), only the bright file is
produced, and if every pixel is below it, only the dark file. -/
theorem multi_material_convert_spec (img : List (List ℕ)) (stem : String) :
    (("Material_1_Bright" ∈ (multi_material_convert img stem).map Prod.fst) ↔
        ∃ row ∈ (separate_colors img 128).1, ∃ v ∈ row, 0 < v) ∧
      (("Material_2_Dark" ∈ (multi_material_convert img stem).map Prod.fst) ↔
        ∃ row ∈ (separate_colors img 128).2, ∃ v ∈ row, 0 < v) ∧
      ((∃ row ∈ img, row ≠ []) → (∀ row ∈ img, ∀ v ∈ row, 128 ≤ v) →
        (multi_material_convert img stem).map Prod.fst = ["Material_1_Bright"]) ∧
      ((∃ row ∈ img, row ≠ []) → (∀ row ∈ img, ∀ v ∈ row, v < 128) →
        (multi_material_convert img stem).map Prod.fst = ["Material_2_Dark"]) := by
  have hiff1 := npmax_pos_iff (separate_colors img 128).1
  have hiff2 := npmax_pos_iff (separate_colors img 128).2
  have hk := multi_material_convert_keys img stem
  refine ⟨?_, ?_, ?_, ?_⟩
  · rw [hk, ← hiff1]
    by_cases h1 : 0 < npmax (separate_colors img 128).1 <;>
      by_cases h2 : 0 < npmax (separate_colors img 128).2 <;>
        simp [h1, h2]
  · rw [hk, ← hiff2]
    by_cases h1 : 0 < npmax (separate_colors img 128).1 <;>
      by_cases h2 : 0 < npmax (separate_colors img 128).2 <;>
        simp [h1, h2]
  · rintro ⟨row, hrow, hne⟩ hall
    have hbright : 0 < npmax (separate_colors img 128).1 := by
      apply hiff1.2
      rcases List.exists_mem_of_ne_nil row hne with ⟨v, hv⟩
      have hv128 := hall row hrow v hv
      refine ⟨row.map fun v => if 128 ≤ v then v else 0,
        List.mem_map_of_mem _ hrow, v, ?_, by omega⟩
      have hmem := List.mem_map_of_mem (fun v => if 128 ≤ v then v else 0) hv
      simpa [hv128] using hmem
    have hdark : ¬ 0 < npmax (separate_colors img 128).2 := by
      intro hpos
      rcases hiff2.1 hpos with ⟨r2, hr2, v, hvm, hv⟩
      rcases List.mem_map.1 hr2 with ⟨r0, hr0, rfl⟩
      rcases List.mem_map.1 hvm with ⟨v0, hv0, rfl⟩
      have := hall r0 hr0 v0 hv0
      rw [if_neg (by omega)] at hv
      omega
    rw [hk, if_pos hbright, if_neg hdark, List.append_nil]
  · rintro ⟨row, hrow, hne⟩ hall
    have hdark : 0 < npmax (separate_colors img 128).2 := by
      apply hiff2.2
      rcases List.exists_mem_of_ne_nil row hne with ⟨v, hv⟩
      have hv128 := hall row hrow v hv
      refine ⟨row.map fun v => if v < 128 then 255 - v else 0,
        List.mem_map_of_mem _ hrow, 255 - v, ?_, by omega⟩
      have hmem := List.mem_map_of_mem (fun v => if v < 128 then 255 - v else 0) hv
      simpa [hv128] using hmem
    have hbright : ¬ 0 < npmax (separate_colors img 128).1 := by
      intro hpos
      rcases hiff1.1 hpos with ⟨r2, hr2, v, hvm, hv⟩
      rcases List.mem_map.1 hr2 with ⟨r0, hr0, rfl⟩
      rcases List.mem_map.1 hvm with ⟨v0, hv0, rfl⟩
      have := hall r0 hr0 v0 hv0
      rw [if_neg (by omega)] at hv
      omega
    rw [hk, if_neg hbright, if_pos hdark]
    rfl

/-- Witness for C10: for the all-bright image `[[200]]`, exactly one
file — the bright material — is produced. -/
theorem multi_material_convert_spec_witness :
    (multi_material_convert [[200]] "out").map Prod.fst =
      ["Material_1_Bright"] :=
  (multi_material_convert_spec [[200]] "out").2.2.1
    ⟨[200], by decide, by decide⟩ (by decide)

/-! ### Vertex placement -/

theorem ix_lt {r c i j : ℕ} (hi : i < r) (hj : j < c) : i * c + j < r * c :=
  calc i * c + j < i * c + c := by omega
    _ = (i + 1) * c := (Nat.succ_mul i c).symm
    _ ≤ r * c := Nat.mul_le_mul_right c hi

theorem getElem?_flatMap_range {α : Type} (n k : ℕ) (f : ℕ → List α)
    (hk : ∀ i, (f i).length = k) (i j : ℕ) (hi : i < n) (hj : j < k) :
    ((List.range n).flatMap f)[i * k + j]? = (f i)[j]? := by
  induction n with
  | zero => omega
  | succ m ih =>
      rw [List.range_succ, List.flatMap_append]
      rcases Nat.lt_or_ge i m with him | him
      · rw [List.getElem?_append_left
          (by rw [length_flatMap_const m k f hk]; exact ix_lt him hj)]
        exact ih him
      · have him2 : i = m := by omega
        subst him2
        rw [List.getElem?_append_right
          (by rw [length_flatMap_const i k f hk]; omega)]
        rw [length_flatMap_const i k f hk]
        have hidx : i * k + j - i * k = j := by omega
        rw [hidx]
        simp

theorem topVertices_getElem (g : Grid) (s : ℚ) (i j : ℕ)
    (hi : i < g.rows) (hj : j < g.cols) :
    (topVertices g s)[i * g.cols + j]? =
      some ((j : ℚ) * s, (i : ℚ) * s, g.data i j) := by
  unfold topVertices
  rw [getElem?_flatMap_range g.rows g.cols _ (fun i => by simp) i j hi hj]
  rw [List.getElem?_map, List.getElem?_range hj, Option.map_some']

theorem bottomVertices_getElem (g : Grid) (s b : ℚ) (i j : ℕ)
    (hi : i < g.rows) (hj : j < g.cols) :
    (bottomVertices g s b)[i * g.cols + j]? =
      some ((j : ℚ) * s, (i : ℚ) * s, b) := by
  unfold bottomVertices
  rw [getElem?_flatMap_range g.rows g.cols _ (fun i => by simp) i j hi hj]
  rw [List.getElem?_map, List.getElem?_range hj, Option.map_some']

/-- Claim C7: `heightmap_to_mesh` places the top-layer vertex for grid
position `(i, j)` at index `i*cols + j` with coordinates
`(j*pixel_size, i*pixel_size, grid[i][j])`, and the bottom-layer vertex
at index `i*cols + j + rows*cols` with the same x and y and
`z = base_height`. -/
theorem heightmap_vertex_coords (g : Grid) (s b : ℚ) (i j : ℕ)
    (hi : i < g.rows) (hj : j < g.cols) :
    (heightmap_to_mesh g s b).1[i * g.cols + j]? =
        some ((j : ℚ) * s, (i : ℚ) * s, g.data i j) ∧
      (heightmap_to_mesh g s b).1[i * g.cols + j + g.rows * g.cols]? =
        some ((j : ℚ) * s, (i : ℚ) * s, b) := by
  constructor
  · show (topVertices g s ++ bottomVertices g s b)[i * g.cols + j]? = _
    rw [List.getElem?_append_left
      (by rw [topVertices_length]; exact ix_lt hi hj)]
    exact topVertices_getElem g s i j hi hj
  · show (topVertices g s ++ bottomVertices g s b)[i * g.cols + j +
      g.rows * g.cols]? = _
    rw [List.getElem?_append_right (by rw [topVertices_length]; omega)]
    rw [topVertices_length]
    have hidx : i * g.cols + j + g.rows * g.cols - g.rows * g.cols =
        i * g.cols + j := by omega
    rw [hidx]
    exact bottomVertices_getElem g s b i j hi hj

/-- Witness for C7: in a 2-by-2 grid with `pixel_size = 1`,
`base_height = 7` and `grid[1][0] = 3`, the top vertex at index 2 is
`(0, 1, 3)` and the bottom vertex at index 6 is `(0, 1, 7)`. -/
theorem heightmap_vertex_coords_witness :
    (heightmap_to_mesh ⟨2, 2, fun i _ => if i = 1 then 3 else 0⟩ 1 7).1[2]? =
        some ((0 : ℚ), (1 : ℚ), (3 : ℚ)) ∧
      (heightmap_to_mesh ⟨2, 2, fun i _ => if i = 1 then 3 else 0⟩ 1 7).1[6]? =
        some ((0 : ℚ), (1 : ℚ), (7 : ℚ)) := by
  have h := heightmap_vertex_coords ⟨2, 2, fun i _ => if i = 1 then 3 else 0⟩
    1 7 1 0 (by norm_num) (by norm_num)
  refine ⟨?_, ?_⟩
  · have h1 := h.1
    norm_num at h1 ⊢
    exact h1
  · have h2 := h.2
    norm_num at h2 ⊢
    exact h2

/-! ### Top- and bottom-surface normal orientation -/

theorem mesh_vtx_top (g : Grid) (s b : ℚ) (i j k : ℕ)
    (hi : i < g.rows) (hj : j < g.cols) (hk : k = i * g.cols + j) :
    ((heightmap_to_mesh g s b).1).getD k (0, 0, 0) =
      ((j : ℚ) * s, (i : ℚ) * s, g.data i j) := by
  subst hk
  rw [List.getD_eq_getElem?_getD, (heightmap_vertex_coords g s b i j hi hj).1]
  rfl

theorem mesh_vtx_bot (g : Grid) (s b : ℚ) (i j k : ℕ)
    (hi : i < g.rows) (hj : j < g.cols)
    (hk : k = i * g.cols + j + g.rows * g.cols) :
    ((heightmap_to_mesh g s b).1).getD k (0, 0, 0) =
      ((j : ℚ) * s, (i : ℚ) * s, b) := by
  subst hk
  rw [List.getD_eq_getElem?_getD, (heightmap_vertex_coords g s b i j hi hj).2]
  rfl

/-- Claim C6: with `pixel_size > 0`, every top-surface face of
`heightmap_to_mesh` has a cross-product normal with non-negative
z-component, and every bottom-surface face has one with non-positive
z-component (vertices fetched from the mesh's vertex list exactly as the
serializer does). -/
theorem surface_normal_z_signs (g : Grid) (s b : ℚ) (hs : 0 < s)
    (hr : 2 ≤ g.rows) (hc : 2 ≤ g.cols) :
    (∀ face ∈ topFaces g.rows g.cols,
        0 ≤ (cross
          (vsub (((heightmap_to_mesh g s b).1).getD face.2.1 (0, 0, 0))
            (((heightmap_to_mesh g s b).1).getD face.1 (0, 0, 0)))
          (vsub (((heightmap_to_mesh g s b).1).getD face.2.2 (0, 0, 0))
            (((heightmap_to_mesh g s b).1).getD face.1 (0, 0, 0)))).2.2) ∧
      (∀ face ∈ bottomFaces g.rows g.cols,
        (cross
          (vsub (((heightmap_to_mesh g s b).1).getD face.2.1 (0, 0, 0))
            (((heightmap_to_mesh g s b).1).getD face.1 (0, 0, 0)))
          (vsub (((heightmap_to_mesh g s b).1).getD face.2.2 (0, 0, 0))
            (((heightmap_to_mesh g s b).1).getD face.1 (0, 0, 0)))).2.2 ≤ 0) := by
  constructor
  · intro face hface
    rcases List.mem_flatMap.1 hface with ⟨i, hi, hface2⟩
    rcases List.mem_flatMap.1 hface2 with ⟨j, hj, hface3⟩
    rw [List.mem_range] at hi hj
    have hi1 : i < g.rows := by omega
    have hi2 : i + 1 < g.rows := by omega
    have hj1 : j < g.cols := by omega
    have hj2 : j + 1 < g.cols := by omega
    simp only [List.mem_cons, List.not_mem_nil, or_false] at hface3
    rcases hface3 with rfl | rfl
    · rw [mesh_vtx_top g s b i j _ hi1 hj1 rfl,
        mesh_vtx_top g s b i (j + 1) (i * g.cols + j + 1) hi1 hj2 (by ring),
        mesh_vtx_top g s b (i + 1) j (i * g.cols + j + g.cols) hi2 hj1 (by ring)]
      simp only [cross, vsub]
      push_cast
      nlinarith [sq_nonneg s]
    · rw [mesh_vtx_top g s b i (j + 1) (i * g.cols + j + 1) hi1 hj2 (by ring),
        mesh_vtx_top g s b (i + 1) (j + 1) (i * g.cols + j + g.cols + 1) hi2 hj2
          (by ring),
        mesh_vtx_top g s b (i + 1) j (i * g.cols + j + g.cols) hi2 hj1 (by ring)]
      simp only [cross, vsub]
      push_cast
      nlinarith [sq_nonneg s]
  · intro face hface
    rcases List.mem_flatMap.1 hface with ⟨i, hi, hface2⟩
    rcases List.mem_flatMap.1 hface2 with ⟨j, hj, hface3⟩
    rw [List.mem_range] at hi hj
    have hi1 : i < g.rows := by omega
    have hi2 : i + 1 < g.rows := by omega
    have hj1 : j < g.cols := by omega
    have hj2 : j + 1 < g.cols := by omega
    simp only [List.mem_cons, List.not_mem_nil, or_false] at hface3
    rcases hface3 with rfl | rfl
    · rw [mesh_vtx_bot g s b i j _ hi1 hj1 rfl,
        mesh_vtx_bot g s b (i + 1) j (i * g.cols + j + g.rows * g.cols + g.cols)
          hi2 hj1 (by ring),
        mesh_vtx_bot g s b i (j + 1) (i * g.cols + j + g.rows * g.cols + 1)
          hi1 hj2 (by ring)]
      simp only [cross, vsub]
      push_cast
      nlinarith [sq_nonneg s]
    · rw [mesh_vtx_bot g s b i (j + 1) (i * g.cols + j + g.rows * g.cols + 1)
          hi1 hj2 (by ring),
        mesh_vtx_bot g s b (i + 1) j (i * g.cols + j + g.rows * g.cols + g.cols)
          hi2 hj1 (by ring),
        mesh_vtx_bot g s b (i + 1) (j + 1)
          (i * g.cols + j + g.rows * g.cols + g.cols + 1) hi2 hj2 (by ring)]
      simp only [cross, vsub]
      push_cast
      nlinarith [sq_nonneg s]

/-- Witness for C6: the first top face and first bottom face of the
2-by-2 unit grid. -/
theorem surface_normal_z_signs_witness :
    (0 : ℚ) ≤ (cross
        (vsub (((heightmap_to_mesh ⟨2, 2, fun _ _ => 1⟩ 1 0).1).getD 1 (0, 0, 0))
          (((heightmap_to_mesh ⟨2, 2, fun _ _ => 1⟩ 1 0).1).getD 0 (0, 0, 0)))
        (vsub (((heightmap_to_mesh ⟨2, 2, fun _ _ => 1⟩ 1 0).1).getD 2 (0, 0, 0))
          (((heightmap_to_mesh ⟨2, 2, fun _ _ => 1⟩ 1 0).1).getD 0 (0, 0, 0)))).2.2 := by
  have h := (surface_normal_z_signs ⟨2, 2, fun _ _ => 1⟩ 1 0 (by norm_num)
    (by norm_num) (by norm_num)).1 (0, 1, 2)
  apply h
  show (0, 1, 2) ∈ topFaces 2 2
  decide

/-! ### Multi-material partitioning -/

theorem np_unique_nodup (colors : List ℤ) : (np_unique colors).Nodup :=
  ((List.mergeSort_perm colors.dedup _).nodup_iff).2 (List.nodup_dedup colors)

theorem mem_np_unique {colors : List ℤ} {x : ℤ} (hx : x ∈ colors) :
    x ∈ np_unique colors :=
  ((List.mergeSort_perm colors.dedup _).mem_iff).2 (List.mem_dedup.2 hx)

theorem list_sum_map_add {β M : Type} [AddCommMonoid M] (u : List β)
    (f g : β → M) :
    (u.map fun x => f x + g x).sum = (u.map f).sum + (u.map g).sum := by
  induction u with
  | nil => simp
  | cons b u2 ih =>
      simp only [List.map_cons, List.sum_cons, ih]
      abel

theorem sum_ite_singleton_zero {α : Type} (u : List ℤ) (x : ℤ)
    (a : α) (hu : u.Nodup) (hx : x ∈ u) :
    (u.map fun id => if x = id then ({a} : Multiset α) else 0).sum = {a} := by
  induction u with
  | nil => cases hx
  | cons b u2 ih =>
      rcases List.mem_cons.1 hx with rfl | hx2
      · have hnot : x ∉ u2 := (List.nodup_cons.1 hu).1
        have hz : (u2.map fun id => if x = id then ({a} : Multiset α) else 0) =
            u2.map fun _ => 0 := by
          apply List.map_congr_left
          intro id hid
          rw [if_neg]
          intro hcontra
          exact hnot (hcontra ▸ hid)
        simp [hz]
      · have hne : x ≠ b := by
          intro hcontra
          subst hcontra
          exact (List.nodup_cons.1 hu).1 hx2
        simp only [List.map_cons, List.sum_cons, if_neg hne]
        rw [ih (List.nodup_cons.1 hu).2 hx2, zero_add]

theorem partition_filter_sum {α : Type} [DecidableEq α] (pairs : List (α × ℤ))
    (u : List ℤ) (hu : u.Nodup) (hcov : ∀ p ∈ pairs, p.2 ∈ u) :
    (u.map fun id =>
        (((pairs.filter fun p => p.2 = id).map Prod.fst : List α) :
          Multiset α)).sum =
      ((pairs.map Prod.fst : List α) : Multiset α) := by
  induction pairs with
  | nil => simp
  | cons p ps ih =>
      have hcov2 : ∀ q ∈ ps, q.2 ∈ u := fun q hq =>
        hcov q (List.mem_cons_of_mem _ hq)
      have hsplit : (u.map fun id =>
          ((((p :: ps).filter fun q => q.2 = id).map Prod.fst : List α) :
            Multiset α)) =
          u.map fun id =>
            (if p.2 = id then ({p.1} : Multiset α) else 0) +
              (((ps.filter fun q => q.2 = id).map Prod.fst : List α) :
                Multiset α) := by
        apply List.map_congr_left
        intro id _
        by_cases hid : p.2 = id
        · rw [if_pos hid, List.filter_cons_of_pos (by simpa using hid)]
          simp [Multiset.singleton_add]
        · rw [if_neg hid, List.filter_cons_of_neg (by simpa using hid),
            zero_add]
      rw [hsplit, list_sum_map_add,
        sum_ite_singleton_zero u p.2 p.1 hu (hcov p (List.mem_cons_self p ps)),
        ih hcov2, List.map_cons, ← Multiset.cons_coe,
        ← Multiset.singleton_add]

/-- Claim C8: over all material ids, the faces selected by
`STLWriter.write_multi_material_stl` cover the original face sequence
exactly once each (as a multiset — no duplication, no omission); every
emitted sub-mesh shares the full original vertex sequence and has at
least one face; an id selecting zero faces produces no output. -/
theorem write_multi_material_partition (V : List V3)
    (F : List (ℕ × ℕ × ℕ)) (cs : List ℤ) (hlen : cs.length = F.length) :
    ((write_multi_material_stl V F cs).map fun entry =>
        ((entry.2.2 : List (ℕ × ℕ × ℕ)) : Multiset (ℕ × ℕ × ℕ))).sum =
        (F : Multiset (ℕ × ℕ × ℕ)) ∧
      (∀ entry ∈ write_multi_material_stl V F cs,
        entry.2.1 = V ∧ entry.2.2 ≠ []) ∧
      (∀ id : ℤ, color_select F cs id = [] →
        ∀ entry ∈ write_multi_material_stl V F cs, entry.1 ≠ id) := by
  refine ⟨?_, ?_, ?_⟩
  · have hstep : ∀ u : List ℤ,
        ((u.filterMap fun color_id =>
            if 0 < (color_select F cs color_id).length then
              some (color_id, (V, color_select F cs color_id))
            else none).map fun entry =>
          ((entry.2.2 : List (ℕ × ℕ × ℕ)) : Multiset (ℕ × ℕ × ℕ))).sum =
          (u.map fun id =>
            ((color_select F cs id : List (ℕ × ℕ × ℕ)) :
              Multiset (ℕ × ℕ × ℕ))).sum := by
      intro u
      induction u with
      | nil => simp
      | cons id u2 ih =>
          by_cases hpos : 0 < (color_select F cs id).length
          · have hfa : (fun color_id =>
                if 0 < (color_select F cs color_id).length then
                  some (color_id, (V, color_select F cs color_id))
                else none) id = some (id, (V, color_select F cs id)) := by
              simp [hpos]
            rw [@List.filterMap_cons_some ℤ _
              (fun color_id =>
                if 0 < (color_select F cs color_id).length then
                  some (color_id, (V, color_select F cs color_id))
                else none) id u2 _ hfa, List.map_cons, List.sum_cons,
              ih, List.map_cons, List.sum_cons]
          · have hfa : (fun color_id =>
                if 0 < (color_select F cs color_id).length then
                  some (color_id, (V, color_select F cs color_id))
                else none) id = none := by
              simp [hpos]
            have hnil : color_select F cs id = [] :=
              List.eq_nil_of_length_eq_zero (by omega)
            rw [@List.filterMap_cons_none ℤ _
              (fun color_id =>
                if 0 < (color_select F cs color_id).length then
                  some (color_id, (V, color_select F cs color_id))
                else none) id u2 hfa, ih, List.map_cons,
              List.sum_cons, hnil]
            simp
    have hdef : write_multi_material_stl V F cs =
        (np_unique cs).filterMap fun color_id =>
          if 0 < (color_select F cs color_id).length then
            some (color_id, (V, color_select F cs color_id))
          else none := rfl
    rw [hdef, hstep (np_unique cs)]
    have hcov : ∀ p ∈ F.zip cs, p.2 ∈ np_unique cs := by
      intro p hp
      have hp2 : p.2 ∈ cs := (List.of_mem_zip (by simpa using hp)).2
      exact mem_np_unique hp2
    have := partition_filter_sum (F.zip cs) (np_unique cs)
      (np_unique_nodup cs) hcov
    rw [show (fun id => ((color_select F cs id : List (ℕ × ℕ × ℕ)) :
        Multiset (ℕ × ℕ × ℕ))) = fun id =>
        (((((F.zip cs).filter fun p => p.2 = id).map Prod.fst) :
          List (ℕ × ℕ × ℕ)) : Multiset (ℕ × ℕ × ℕ)) from rfl, this,
      List.map_fst_zip F cs (by omega)]
  · intro entry hentry
    rcases List.mem_filterMap.1 hentry with ⟨id, hid, hsome⟩
    by_cases hpos : 0 < (color_select F cs id).length
    · simp only [if_pos hpos] at hsome
      obtain rfl : (id, (V, color_select F cs id)) = entry :=
        Option.some.inj hsome
      refine ⟨rfl, ?_⟩
      intro hnil
      have hnil2 : color_select F cs id = [] := hnil
      rw [hnil2] at hpos
      simp at hpos
    · simp only [if_neg hpos] at hsome
      cases hsome
  · intro id hsel entry hentry heq
    rcases List.mem_filterMap.1 hentry with ⟨id2, hid2, hsome⟩
    by_cases hpos : 0 < (color_select F cs id2).length
    · simp only [if_pos hpos] at hsome
      obtain rfl : (id2, (V, color_select F cs id2)) = entry :=
        Option.some.inj hsome
      have h1 : id2 = id := heq
      rw [h1, hsel] at hpos
      simp at hpos
    · simp only [if_neg hpos] at hsome
      cases hsome

/-- Witness for C8: two faces with colors 5 and 7 split into two
sub-meshes that together cover both faces exactly once. -/
theorem write_multi_material_partition_witness :
    ((write_multi_material_stl [] [(0, 0, 0), (1, 1, 1)] [5, 7]).map
        fun entry =>
          ((entry.2.2 : List (ℕ × ℕ × ℕ)) : Multiset (ℕ × ℕ × ℕ))).sum =
      (([(0, 0, 0), (1, 1, 1)] : List (ℕ × ℕ × ℕ)) :
        Multiset (ℕ × ℕ × ℕ)) :=
  (write_multi_material_partition [] [(0, 0, 0), (1, 1, 1)] [5, 7] rfl).1

/-! ### Watertightness: every undirected edge lies in exactly two faces -/

theorem e_comm (x y : ℕ) : e x y = e y x := Sym2.eq_swap

theorem e_eq_iff {x y z w : ℕ} :
    e x y = e z w ↔ x = z ∧ y = w ∨ x = w ∧ y = z := Sym2.eq_iff

theorem coe_flatMap_range {α : Type} (n : ℕ) (f : ℕ → List α) :
    (((List.range n).flatMap f : List α) : Multiset α) =
      ∑ i in Finset.range n, ((f i : List α) : Multiset α) := by
  induction n with
  | zero => simp
  | succ m ih =>
      rw [List.range_succ, List.flatMap_append, ← Multiset.coe_add, ih,
        Finset.sum_range_succ]
      simp

theorem top_cell_edges (c i j : ℕ) :
    ((undirectedEdges [(i * c + j, i * c + j + 1, i * c + j + c),
        (i * c + j + 1, i * c + j + c + 1, i * c + j + c)] : List (Sym2 ℕ)) :
      Multiset (Sym2 ℕ)) = cellTop c i j := by
  unfold cellTop
  congr 1
  have h2 : e (i * c + j + 1) (i * c + j + c) = eD c i j := by
    unfold eD topIx
    rw [e_eq_iff]
    exact Or.inl ⟨by ring, by ring⟩
  have h3 : e (i * c + j + c) (i * c + j) = eV c i j := by
    unfold eV topIx
    rw [e_eq_iff]
    exact Or.inr ⟨by ring, by ring⟩
  have h4 : e (i * c + j + 1) (i * c + j + c + 1) = eV c i (j + 1) := by
    unfold eV topIx
    rw [e_eq_iff]
    exact Or.inl ⟨by ring, by ring⟩
  have h5 : e (i * c + j + c + 1) (i * c + j + c) = eH c (i + 1) j := by
    unfold eH topIx
    rw [e_eq_iff]
    exact Or.inr ⟨by ring, by ring⟩
  have h6 : e (i * c + j + c) (i * c + j + 1) = eD c i j := by
    unfold eD topIx
    rw [e_eq_iff]
    exact Or.inr ⟨by ring, by ring⟩
  show [e (i * c + j) (i * c + j + 1), e (i * c + j + 1) (i * c + j + c),
      e (i * c + j + c) (i * c + j), e (i * c + j + 1) (i * c + j + c + 1),
      e (i * c + j + c + 1) (i * c + j + c),
      e (i * c + j + c) (i * c + j + 1)] = _
  rw [h2, h3, h4, h5, h6]
  rfl

theorem bot_cell_edges (r c i j : ℕ) :
    ((undirectedEdges
        [(i * c + j + r * c, i * c + j + r * c + c, i * c + j + r * c + 1),
         (i * c + j + r * c + 1, i * c + j + r * c + c,
          i * c + j + r * c + c + 1)] : List (Sym2 ℕ)) :
      Multiset (Sym2 ℕ)) = cellBot r c i j := by
  unfold cellBot
  congr 1
  have h1 : e (i * c + j + r * c) (i * c + j + r * c + c) = eVB r c i j := by
    unfold eVB botIx
    rw [e_eq_iff]
    exact Or.inl ⟨by ring, by ring⟩
  have h2 : e (i * c + j + r * c + c) (i * c + j + r * c + 1) = eDB r c i j := by
    unfold eDB botIx
    rw [e_eq_iff]
    exact Or.inr ⟨by ring, by ring⟩
  have h3 : e (i * c + j + r * c + 1) (i * c + j + r * c) = eHB r c i j := by
    unfold eHB botIx
    rw [e_eq_iff]
    exact Or.inr ⟨by ring, by ring⟩
  have h4 : e (i * c + j + r * c + 1) (i * c + j + r * c + c) = eDB r c i j := by
    unfold eDB botIx
    rw [e_eq_iff]
    exact Or.inl ⟨by ring, by ring⟩
  have h5 : e (i * c + j + r * c + c) (i * c + j + r * c + c + 1) =
      eHB r c (i + 1) j := by
    unfold eHB botIx
    rw [e_eq_iff]
    exact Or.inl ⟨by ring, by ring⟩
  have h6 : e (i * c + j + r * c + c + 1) (i * c + j + r * c + 1) =
      eVB r c i (j + 1) := by
    unfold eVB botIx
    rw [e_eq_iff]
    exact Or.inr ⟨by ring, by ring⟩
  show [e (i * c + j + r * c) (i * c + j + r * c + c),
      e (i * c + j + r * c + c) (i * c + j + r * c + 1),
      e (i * c + j + r * c + 1) (i * c + j + r * c),
      e (i * c + j + r * c + 1) (i * c + j + r * c + c),
      e (i * c + j + r * c + c) (i * c + j + r * c + c + 1),
      e (i * c + j + r * c + c + 1) (i * c + j + r * c + 1)] = _
  rw [h1, h2, h3, h4, h5, h6]

theorem left_cell_edges (r c i : ℕ) :
    ((undirectedEdges
        [(i * c, i * c + r * c, i * c + c),
         (i * c + r * c, i * c + r * c + c, i * c + c)] : List (Sym2 ℕ)) :
      Multiset (Sym2 ℕ)) = cellLeft r c i := by
  unfold cellLeft
  congr 1
  have h1 : e (i * c) (i * c + r * c) = eP r c i 0 := by
    unfold eP topIx botIx
    rw [e_eq_iff]
    exact Or.inl ⟨by ring, by ring⟩
  have h2 : e (i * c + r * c) (i * c + c) = eDL r c i := by
    unfold eDL topIx botIx
    rw [e_eq_iff]
    exact Or.inl ⟨by ring, by ring⟩
  have h3 : e (i * c + c) (i * c) = eV c i 0 := by
    unfold eV topIx
    rw [e_eq_iff]
    exact Or.inr ⟨by ring, by ring⟩
  have h4 : e (i * c + r * c) (i * c + r * c + c) = eVB r c i 0 := by
    unfold eVB botIx
    rw [e_eq_iff]
    exact Or.inl ⟨by ring, by ring⟩
  have h5 : e (i * c + r * c + c) (i * c + c) = eP r c (i + 1) 0 := by
    unfold eP topIx botIx
    rw [e_eq_iff]
    exact Or.inr ⟨by ring, by ring⟩
  have h6 : e (i * c + c) (i * c + r * c) = eDL r c i := by
    unfold eDL topIx botIx
    rw [e_eq_iff]
    exact Or.inr ⟨by ring, by ring⟩
  show [e (i * c) (i * c + r * c), e (i * c + r * c) (i * c + c),
      e (i * c + c) (i * c), e (i * c + r * c) (i * c + r * c + c),
      e (i * c + r * c + c) (i * c + c), e (i * c + c) (i * c + r * c)] = _
  rw [h1, h2, h3, h4, h5, h6]

theorem right_cell_edges (r c i : ℕ) (hc : 1 ≤ c) :
    ((undirectedEdges
        [(i * c + c - 1, i * c + c - 1 + c, i * c + c - 1 + r * c),
         (i * c + c - 1 + r * c, i * c + c - 1 + c,
          i * c + c - 1 + r * c + c)] : List (Sym2 ℕ)) :
      Multiset (Sym2 ℕ)) = cellRight r c i := by
  obtain ⟨d, rfl⟩ : ∃ d, c = d + 1 := ⟨c - 1, by omega⟩
  unfold cellRight
  congr 1
  have ht : i * (d + 1) + (d + 1) - 1 = i * (d + 1) + d := by omega
  rw [ht]
  have h1 : e (i * (d + 1) + d) (i * (d + 1) + d + (d + 1)) =
      eV (d + 1) i (d + 1 - 1) := by
    unfold eV topIx
    rw [e_eq_iff]
    exact Or.inl ⟨by omega, by ring_nf; omega⟩
  have h2 : e (i * (d + 1) + d + (d + 1)) (i * (d + 1) + d + r * (d + 1)) =
      eDR r (d + 1) i := by
    unfold eDR topIx botIx
    rw [e_eq_iff]
    exact Or.inl ⟨by ring_nf; omega, by ring_nf; omega⟩
  have h3 : e (i * (d + 1) + d + r * (d + 1)) (i * (d + 1) + d) =
      eP r (d + 1) i (d + 1 - 1) := by
    unfold eP topIx botIx
    rw [e_eq_iff]
    exact Or.inr ⟨by omega, by ring_nf; omega⟩
  have h4 : e (i * (d + 1) + d + r * (d + 1)) (i * (d + 1) + d + (d + 1)) =
      eDR r (d + 1) i := by
    unfold eDR topIx botIx
    rw [e_eq_iff]
    exact Or.inr ⟨by ring_nf; omega, by ring_nf; omega⟩
  have h5 : e (i * (d + 1) + d + (d + 1))
      (i * (d + 1) + d + r * (d + 1) + (d + 1)) =
      eP r (d + 1) (i + 1) (d + 1 - 1) := by
    unfold eP topIx botIx
    rw [e_eq_iff]
    exact Or.inl ⟨by ring_nf; omega, by ring_nf; omega⟩
  have h6 : e (i * (d + 1) + d + r * (d + 1) + (d + 1))
      (i * (d + 1) + d + r * (d + 1)) = eVB r (d + 1) i (d + 1 - 1) := by
    unfold eVB botIx
    rw [e_eq_iff]
    exact Or.inr ⟨by ring_nf; omega, by ring_nf; omega⟩
  show [e (i * (d + 1) + d) (i * (d + 1) + d + (d + 1)),
      e (i * (d + 1) + d + (d + 1)) (i * (d + 1) + d + r * (d + 1)),
      e (i * (d + 1) + d + r * (d + 1)) (i * (d + 1) + d),
      e (i * (d + 1) + d + r * (d + 1)) (i * (d + 1) + d + (d + 1)),
      e (i * (d + 1) + d + (d + 1)) (i * (d + 1) + d + r * (d + 1) + (d + 1)),
      e (i * (d + 1) + d + r * (d + 1) + (d + 1))
        (i * (d + 1) + d + r * (d + 1))] = _
  rw [h1, h2, h3, h4, h5, h6]

theorem front_cell_edges (r c j : ℕ) :
    ((undirectedEdges
        [(j, j + 1, j + r * c), (j + r * c, j + 1, j + r * c + 1)] :
      List (Sym2 ℕ)) : Multiset (Sym2 ℕ)) = cellFront r c j := by
  unfold cellFront
  congr 1
  have h1 : e j (j + 1) = eH c 0 j := by
    unfold eH topIx
    rw [e_eq_iff]
    exact Or.inl ⟨by ring, by ring⟩
  have h2 : e (j + 1) (j + r * c) = eDF r c j := by
    unfold eDF topIx botIx
    rw [e_eq_iff]
    exact Or.inl ⟨by ring, by ring⟩
  have h3 : e (j + r * c) j = eP r c 0 j := by
    unfold eP topIx botIx
    rw [e_eq_iff]
    exact Or.inr ⟨by ring, by ring⟩
  have h4 : e (j + r * c) (j + 1) = eDF r c j := by
    unfold eDF topIx botIx
    rw [e_eq_iff]
    exact Or.inr ⟨by ring, by ring⟩
  have h5 : e (j + 1) (j + r * c + 1) = eP r c 0 (j + 1) := by
    unfold eP topIx botIx
    rw [e_eq_iff]
    exact Or.inl ⟨by ring, by ring⟩
  have h6 : e (j + r * c + 1) (j + r * c) = eHB r c 0 j := by
    unfold eHB botIx
    rw [e_eq_iff]
    exact Or.inr ⟨by ring, by ring⟩
  show [e j (j + 1), e (j + 1) (j + r * c), e (j + r * c) j,
      e (j + r * c) (j + 1), e (j + 1) (j + r * c + 1),
      e (j + r * c + 1) (j + r * c)] = _
  rw [h1, h2, h3, h4, h5, h6]

theorem back_cell_edges (r c j : ℕ) (hr : 1 ≤ r) :
    ((undirectedEdges
        [((r - 1) * c + j, (r - 1) * c + j + r * c, (r - 1) * c + j + 1),
         ((r - 1) * c + j + r * c, (r - 1) * c + j + r * c + 1,
          (r - 1) * c + j + 1)] : List (Sym2 ℕ)) :
      Multiset (Sym2 ℕ)) = cellBack r c j := by
  obtain ⟨q, rfl⟩ : ∃ q, r = q + 1 := ⟨r - 1, by omega⟩
  unfold cellBack
  congr 1
  have h1 : e ((q + 1 - 1) * c + j) ((q + 1 - 1) * c + j + (q + 1) * c) =
      eP (q + 1) c (q + 1 - 1) j := by
    unfold eP topIx botIx
    rw [e_eq_iff]
    exact Or.inl ⟨by ring, by ring⟩
  have h2 : e ((q + 1 - 1) * c + j + (q + 1) * c) ((q + 1 - 1) * c + j + 1) =
      eDK (q + 1) c j := by
    unfold eDK topIx botIx
    rw [e_eq_iff]
    exact Or.inl ⟨by ring, by ring⟩
  have h3 : e ((q + 1 - 1) * c + j + 1) ((q + 1 - 1) * c + j) =
      eH c (q + 1 - 1) j := by
    unfold eH topIx
    rw [e_eq_iff]
    exact Or.inr ⟨by ring, by ring⟩
  have h4 : e ((q + 1 - 1) * c + j + (q + 1) * c)
      ((q + 1 - 1) * c + j + (q + 1) * c + 1) = eHB (q + 1) c (q + 1 - 1) j := by
    unfold eHB botIx
    rw [e_eq_iff]
    exact Or.inl ⟨by ring, by ring⟩
  have h5 : e ((q + 1 - 1) * c + j + (q + 1) * c + 1)
      ((q + 1 - 1) * c + j + 1) = eP (q + 1) c (q + 1 - 1) (j + 1) := by
    unfold eP topIx botIx
    rw [e_eq_iff]
    exact Or.inr ⟨by ring, by ring⟩
  have h6 : e ((q + 1 - 1) * c + j + 1) ((q + 1 - 1) * c + j + (q + 1) * c) =
      eDK (q + 1) c j := by
    unfold eDK topIx botIx
    rw [e_eq_iff]
    exact Or.inr ⟨by ring, by ring⟩
  show [e ((q + 1 - 1) * c + j) ((q + 1 - 1) * c + j + (q + 1) * c),
      e ((q + 1 - 1) * c + j + (q + 1) * c) ((q + 1 - 1) * c + j + 1),
      e ((q + 1 - 1) * c + j + 1) ((q + 1 - 1) * c + j),
      e ((q + 1 - 1) * c + j + (q + 1) * c)
        ((q + 1 - 1) * c + j + (q + 1) * c + 1),
      e ((q + 1 - 1) * c + j + (q + 1) * c + 1) ((q + 1 - 1) * c + j + 1),
      e ((q + 1 - 1) * c + j + 1) ((q + 1 - 1) * c + j + (q + 1) * c)] = _
  rw [h1, h2, h3, h4, h5, h6]

theorem topFaces_edges (r c : ℕ) :
    ((undirectedEdges (topFaces r c) : List (Sym2 ℕ)) : Multiset (Sym2 ℕ)) =
      ∑ i in Finset.range (r - 1), ∑ j in Finset.range (c - 1),
        cellTop c i j := by
  unfold topFaces undirectedEdges
  simp only [List.flatMap_assoc]
  rw [coe_flatMap_range]
  refine Finset.sum_congr rfl fun i _ => ?_
  rw [coe_flatMap_range]
  refine Finset.sum_congr rfl fun j _ => ?_
  exact top_cell_edges c i j

theorem bottomFaces_edges (r c : ℕ) :
    ((undirectedEdges (bottomFaces r c) : List (Sym2 ℕ)) :
      Multiset (Sym2 ℕ)) =
      ∑ i in Finset.range (r - 1), ∑ j in Finset.range (c - 1),
        cellBot r c i j := by
  unfold bottomFaces undirectedEdges
  simp only [List.flatMap_assoc]
  rw [coe_flatMap_range]
  refine Finset.sum_congr rfl fun i _ => ?_
  rw [coe_flatMap_range]
  refine Finset.sum_congr rfl fun j _ => ?_
  exact bot_cell_edges r c i j

theorem leftFaces_edges (r c : ℕ) :
    ((undirectedEdges (leftFaces r c) : List (Sym2 ℕ)) : Multiset (Sym2 ℕ)) =
      ∑ i in Finset.range (r - 1), cellLeft r c i := by
  unfold leftFaces undirectedEdges
  simp only [List.flatMap_assoc]
  rw [coe_flatMap_range]
  refine Finset.sum_congr rfl fun i _ => ?_
  exact left_cell_edges r c i

theorem rightFaces_edges (r c : ℕ) (hc : 1 ≤ c) :
    ((undirectedEdges (rightFaces r c) : List (Sym2 ℕ)) : Multiset (Sym2 ℕ)) =
      ∑ i in Finset.range (r - 1), cellRight r c i := by
  unfold rightFaces undirectedEdges
  simp only [List.flatMap_assoc]
  rw [coe_flatMap_range]
  refine Finset.sum_congr rfl fun i _ => ?_
  exact right_cell_edges r c i hc

theorem frontFaces_edges (r c : ℕ) :
    ((undirectedEdges (frontFaces r c) : List (Sym2 ℕ)) : Multiset (Sym2 ℕ)) =
      ∑ j in Finset.range (c - 1), cellFront r c j := by
  unfold frontFaces undirectedEdges
  simp only [List.flatMap_assoc]
  rw [coe_flatMap_range]
  refine Finset.sum_congr rfl fun j _ => ?_
  exact front_cell_edges r c j

theorem backFaces_edges (r c : ℕ) (hr : 1 ≤ r) :
    ((undirectedEdges (backFaces r c) : List (Sym2 ℕ)) : Multiset (Sym2 ℕ)) =
      ∑ j in Finset.range (c - 1), cellBack r c j := by
  unfold backFaces undirectedEdges
  simp only [List.flatMap_assoc]
  rw [coe_flatMap_range]
  refine Finset.sum_congr rfl fun j _ => ?_
  exact back_cell_edges r c j hr

theorem tele1 {M : Type} [AddCommMonoid M] (f : ℕ → M) (n : ℕ) (hn : 1 ≤ n) :
    (∑ i in Finset.range (n - 1), f i) +
        (∑ i in Finset.range (n - 1), f (i + 1)) + f 0 + f (n - 1) =
      2 • ∑ i in Finset.range n, f i := by
  obtain ⟨m, rfl⟩ : ∃ m, n = m + 1 := ⟨n - 1, by omega⟩
  simp only [Nat.add_sub_cancel]
  rw [two_nsmul]
  nth_rewrite 2 [Finset.sum_range_succ' f m]
  rw [Finset.sum_range_succ]
  abel

theorem tele2 {M : Type} [AddCommMonoid M] (f : ℕ → M) (n : ℕ) (hn : 2 ≤ n) :
    (∑ j in Finset.range (n - 1), f j) +
        (∑ j in Finset.range (n - 1), f (j + 1)) =
      f 0 + f (n - 1) + 2 • ∑ j in Finset.range (n - 2), f (j + 1) := by
  obtain ⟨m, rfl⟩ : ∃ m, n = m + 2 := ⟨n - 2, by omega⟩
  have h1 : m + 2 - 1 = m + 1 := by omega
  have h2 : m + 2 - 2 = m := by omega
  rw [h1, h2, two_nsmul, Finset.sum_range_succ' f m, Finset.sum_range_succ]
  abel

theorem cellTop_split (c i j : ℕ) :
    cellTop c i j =
      ({eH c i j} : Multiset (Sym2 ℕ)) + {eD c i j} + {eV c i j} +
        {eV c i (j + 1)} + {eH c (i + 1) j} + {eD c i j} := rfl

theorem cellBot_split (r c i j : ℕ) :
    cellBot r c i j =
      ({eVB r c i j} : Multiset (Sym2 ℕ)) + {eDB r c i j} + {eHB r c i j} +
        {eDB r c i j} + {eHB r c (i + 1) j} + {eVB r c i (j + 1)} := rfl

theorem cellLeft_split (r c i : ℕ) :
    cellLeft r c i =
      ({eP r c i 0} : Multiset (Sym2 ℕ)) + {eDL r c i} + {eV c i 0} +
        {eVB r c i 0} + {eP r c (i + 1) 0} + {eDL r c i} := rfl

theorem cellRight_split (r c i : ℕ) :
    cellRight r c i =
      ({eV c i (c - 1)} : Multiset (Sym2 ℕ)) + {eDR r c i} +
        {eP r c i (c - 1)} + {eDR r c i} + {eP r c (i + 1) (c - 1)} +
        {eVB r c i (c - 1)} := rfl

theorem cellFront_split (r c j : ℕ) :
    cellFront r c j =
      ({eH c 0 j} : Multiset (Sym2 ℕ)) + {eDF r c j} + {eP r c 0 j} +
        {eDF r c j} + {eP r c 0 (j + 1)} + {eHB r c 0 j} := rfl

theorem cellBack_split (r c j : ℕ) :
    cellBack r c j =
      ({eP r c (r - 1) j} : Multiset (Sym2 ℕ)) + {eDK r c j} +
        {eH c (r - 1) j} + {eHB r c (r - 1) j} + {eP r c (r - 1) (j + 1)} +
        {eDK r c j} := rfl

theorem groupH (r c : ℕ) (hr : 1 ≤ r) :
    (∑ i in Finset.range (r - 1), ∑ j in Finset.range (c - 1),
        ({eH c i j} : Multiset (Sym2 ℕ))) +
        (∑ i in Finset.range (r - 1), ∑ j in Finset.range (c - 1),
          ({eH c (i + 1) j} : Multiset (Sym2 ℕ))) +
        (∑ j in Finset.range (c - 1), ({eH c 0 j} : Multiset (Sym2 ℕ))) +
        (∑ j in Finset.range (c - 1), ({eH c (r - 1) j} : Multiset (Sym2 ℕ))) =
      2 • ∑ i in Finset.range r, ∑ j in Finset.range (c - 1),
        ({eH c i j} : Multiset (Sym2 ℕ)) :=
  tele1 (fun i => ∑ j in Finset.range (c - 1),
    ({eH c i j} : Multiset (Sym2 ℕ))) r hr

theorem groupHB (r c : ℕ) (hr : 1 ≤ r) :
    (∑ i in Finset.range (r - 1), ∑ j in Finset.range (c - 1),
        ({eHB r c i j} : Multiset (Sym2 ℕ))) +
        (∑ i in Finset.range (r - 1), ∑ j in Finset.range (c - 1),
          ({eHB r c (i + 1) j} : Multiset (Sym2 ℕ))) +
        (∑ j in Finset.range (c - 1), ({eHB r c 0 j} : Multiset (Sym2 ℕ))) +
        (∑ j in Finset.range (c - 1),
          ({eHB r c (r - 1) j} : Multiset (Sym2 ℕ))) =
      2 • ∑ i in Finset.range r, ∑ j in Finset.range (c - 1),
        ({eHB r c i j} : Multiset (Sym2 ℕ)) :=
  tele1 (fun i => ∑ j in Finset.range (c - 1),
    ({eHB r c i j} : Multiset (Sym2 ℕ))) r hr

theorem groupV (r c : ℕ) (hc : 1 ≤ c) :
    (∑ i in Finset.range (r - 1), ∑ j in Finset.range (c - 1),
        ({eV c i j} : Multiset (Sym2 ℕ))) +
        (∑ i in Finset.range (r - 1), ∑ j in Finset.range (c - 1),
          ({eV c i (j + 1)} : Multiset (Sym2 ℕ))) +
        (∑ i in Finset.range (r - 1), ({eV c i 0} : Multiset (Sym2 ℕ))) +
        (∑ i in Finset.range (r - 1),
          ({eV c i (c - 1)} : Multiset (Sym2 ℕ))) =
      2 • ∑ i in Finset.range (r - 1), ∑ j in Finset.range c,
        ({eV c i j} : Multiset (Sym2 ℕ)) := by
  rw [← Finset.sum_add_distrib, ← Finset.sum_add_distrib,
    ← Finset.sum_add_distrib]
  rw [show (2 • ∑ i in Finset.range (r - 1), ∑ j in Finset.range c,
      ({eV c i j} : Multiset (Sym2 ℕ))) =
      ∑ i in Finset.range (r - 1), 2 • ∑ j in Finset.range c,
        ({eV c i j} : Multiset (Sym2 ℕ)) from Finset.smul_sum]
  refine Finset.sum_congr rfl fun i _ => ?_
  exact tele1 (fun j => ({eV c i j} : Multiset (Sym2 ℕ))) c hc

theorem groupVB (r c : ℕ) (hc : 1 ≤ c) :
    (∑ i in Finset.range (r - 1), ∑ j in Finset.range (c - 1),
        ({eVB r c i j} : Multiset (Sym2 ℕ))) +
        (∑ i in Finset.range (r - 1), ∑ j in Finset.range (c - 1),
          ({eVB r c i (j + 1)} : Multiset (Sym2 ℕ))) +
        (∑ i in Finset.range (r - 1), ({eVB r c i 0} : Multiset (Sym2 ℕ))) +
        (∑ i in Finset.range (r - 1),
          ({eVB r c i (c - 1)} : Multiset (Sym2 ℕ))) =
      2 • ∑ i in Finset.range (r - 1), ∑ j in Finset.range c,
        ({eVB r c i j} : Multiset (Sym2 ℕ)) := by
  rw [← Finset.sum_add_distrib, ← Finset.sum_add_distrib,
    ← Finset.sum_add_distrib]
  rw [show (2 • ∑ i in Finset.range (r - 1), ∑ j in Finset.range c,
      ({eVB r c i j} : Multiset (Sym2 ℕ))) =
      ∑ i in Finset.range (r - 1), 2 • ∑ j in Finset.range c,
        ({eVB r c i j} : Multiset (Sym2 ℕ)) from Finset.smul_sum]
  refine Finset.sum_congr rfl fun i _ => ?_
  exact tele1 (fun j => ({eVB r c i j} : Multiset (Sym2 ℕ))) c hc

theorem groupP (r c : ℕ) (hr : 1 ≤ r) (hc : 2 ≤ c) :
    (∑ i in Finset.range (r - 1), ({eP r c i 0} : Multiset (Sym2 ℕ))) +
        (∑ i in Finset.range (r - 1),
          ({eP r c (i + 1) 0} : Multiset (Sym2 ℕ))) +
        (∑ i in Finset.range (r - 1),
          ({eP r c i (c - 1)} : Multiset (Sym2 ℕ))) +
        (∑ i in Finset.range (r - 1),
          ({eP r c (i + 1) (c - 1)} : Multiset (Sym2 ℕ))) +
        (∑ j in Finset.range (c - 1), ({eP r c 0 j} : Multiset (Sym2 ℕ))) +
        (∑ j in Finset.range (c - 1),
          ({eP r c 0 (j + 1)} : Multiset (Sym2 ℕ))) +
        (∑ j in Finset.range (c - 1),
          ({eP r c (r - 1) j} : Multiset (Sym2 ℕ))) +
        (∑ j in Finset.range (c - 1),
          ({eP r c (r - 1) (j + 1)} : Multiset (Sym2 ℕ))) =
      (2 • ∑ i in Finset.range r, ({eP r c i 0} : Multiset (Sym2 ℕ))) +
        (2 • ∑ i in Finset.range r,
          ({eP r c i (c - 1)} : Multiset (Sym2 ℕ))) +
        (2 • ∑ j in Finset.range (c - 2),
          ({eP r c 0 (j + 1)} : Multiset (Sym2 ℕ))) +
        (2 • ∑ j in Finset.range (c - 2),
          ({eP r c (r - 1) (j + 1)} : Multiset (Sym2 ℕ))) := by
  have hF := tele2 (fun j => ({eP r c 0 j} : Multiset (Sym2 ℕ))) c hc
  have hK := tele2 (fun j => ({eP r c (r - 1) j} : Multiset (Sym2 ℕ))) c hc
  have hL := tele1 (fun i => ({eP r c i 0} : Multiset (Sym2 ℕ))) r hr
  have hR := tele1 (fun i => ({eP r c i (c - 1)} : Multiset (Sym2 ℕ))) r hr
  calc (∑ i in Finset.range (r - 1), ({eP r c i 0} : Multiset (Sym2 ℕ))) +
        (∑ i in Finset.range (r - 1),
          ({eP r c (i + 1) 0} : Multiset (Sym2 ℕ))) +
        (∑ i in Finset.range (r - 1),
          ({eP r c i (c - 1)} : Multiset (Sym2 ℕ))) +
        (∑ i in Finset.range (r - 1),
          ({eP r c (i + 1) (c - 1)} : Multiset (Sym2 ℕ))) +
        (∑ j in Finset.range (c - 1), ({eP r c 0 j} : Multiset (Sym2 ℕ))) +
        (∑ j in Finset.range (c - 1),
          ({eP r c 0 (j + 1)} : Multiset (Sym2 ℕ))) +
        (∑ j in Finset.range (c - 1),
          ({eP r c (r - 1) j} : Multiset (Sym2 ℕ))) +
        (∑ j in Finset.range (c - 1),
          ({eP r c (r - 1) (j + 1)} : Multiset (Sym2 ℕ)))
      = ((∑ i in Finset.range (r - 1), ({eP r c i 0} : Multiset (Sym2 ℕ))) +
          (∑ i in Finset.range (r - 1),
            ({eP r c (i + 1) 0} : Multiset (Sym2 ℕ)))) +
        ((∑ i in Finset.range (r - 1),
            ({eP r c i (c - 1)} : Multiset (Sym2 ℕ))) +
          (∑ i in Finset.range (r - 1),
            ({eP r c (i + 1) (c - 1)} : Multiset (Sym2 ℕ)))) +
        ((∑ j in Finset.range (c - 1), ({eP r c 0 j} : Multiset (Sym2 ℕ))) +
          (∑ j in Finset.range (c - 1),
            ({eP r c 0 (j + 1)} : Multiset (Sym2 ℕ)))) +
        ((∑ j in Finset.range (c - 1),
            ({eP r c (r - 1) j} : Multiset (Sym2 ℕ))) +
          (∑ j in Finset.range (c - 1),
            ({eP r c (r - 1) (j + 1)} : Multiset (Sym2 ℕ)))) := by abel
    _ = ((∑ i in Finset.range (r - 1), ({eP r c i 0} : Multiset (Sym2 ℕ))) +
          (∑ i in Finset.range (r - 1),
            ({eP r c (i + 1) 0} : Multiset (Sym2 ℕ)))) +
        ((∑ i in Finset.range (r - 1),
            ({eP r c i (c - 1)} : Multiset (Sym2 ℕ))) +
          (∑ i in Finset.range (r - 1),
            ({eP r c (i + 1) (c - 1)} : Multiset (Sym2 ℕ)))) +
        (({eP r c 0 0} : Multiset (Sym2 ℕ)) + {eP r c 0 (c - 1)} +
          2 • ∑ j in Finset.range (c - 2),
            ({eP r c 0 (j + 1)} : Multiset (Sym2 ℕ))) +
        (({eP r c (r - 1) 0} : Multiset (Sym2 ℕ)) + {eP r c (r - 1) (c - 1)} +
          2 • ∑ j in Finset.range (c - 2),
            ({eP r c (r - 1) (j + 1)} : Multiset (Sym2 ℕ))) := by
        rw [hF, hK]
    _ = ((∑ i in Finset.range (r - 1), ({eP r c i 0} : Multiset (Sym2 ℕ))) +
          (∑ i in Finset.range (r - 1),
            ({eP r c (i + 1) 0} : Multiset (Sym2 ℕ))) +
          {eP r c 0 0} + {eP r c (r - 1) 0}) +
        ((∑ i in Finset.range (r - 1),
            ({eP r c i (c - 1)} : Multiset (Sym2 ℕ))) +
          (∑ i in Finset.range (r - 1),
            ({eP r c (i + 1) (c - 1)} : Multiset (Sym2 ℕ))) +
          {eP r c 0 (c - 1)} + {eP r c (r - 1) (c - 1)}) +
        (2 • ∑ j in Finset.range (c - 2),
          ({eP r c 0 (j + 1)} : Multiset (Sym2 ℕ))) +
        (2 • ∑ j in Finset.range (c - 2),
          ({eP r c (r - 1) (j + 1)} : Multiset (Sym2 ℕ))) := by abel
    _ = (2 • ∑ i in Finset.range r, ({eP r c i 0} : Multiset (Sym2 ℕ))) +
        (2 • ∑ i in Finset.range r,
          ({eP r c i (c - 1)} : Multiset (Sym2 ℕ))) +
        (2 • ∑ j in Finset.range (c - 2),
          ({eP r c 0 (j + 1)} : Multiset (Sym2 ℕ))) +
        (2 • ∑ j in Finset.range (c - 2),
          ({eP r c (r - 1) (j + 1)} : Multiset (Sym2 ℕ))) := by
        rw [hL, hR]

theorem undirectedEdges_append (l1 l2 : List (ℕ × ℕ × ℕ)) :
    undirectedEdges (l1 ++ l2) = undirectedEdges l1 ++ undirectedEdges l2 :=
  List.flatMap_append l1 l2 _

set_option maxHeartbeats 8000000 in
/-- The multiset of undirected edges of the heightmap mesh is exactly two
copies of `meshEdgeSet`. -/
theorem edge_multiset_eq (r c : ℕ) (hr : 2 ≤ r) (hc : 2 ≤ c) :
    ((undirectedEdges (heightmapFaces r c) : List (Sym2 ℕ)) :
      Multiset (Sym2 ℕ)) = 2 • meshEdgeSet r c := by
  have hr1 : 1 ≤ r := by omega
  have hc1 : 1 ≤ c := by omega
  rw [heightmapFaces]
  rw [undirectedEdges_append, undirectedEdges_append, undirectedEdges_append,
    undirectedEdges_append, undirectedEdges_append]
  rw [← Multiset.coe_add, ← Multiset.coe_add, ← Multiset.coe_add,
    ← Multiset.coe_add, ← Multiset.coe_add]
  rw [topFaces_edges, bottomFaces_edges, leftFaces_edges,
    rightFaces_edges r c hc1, frontFaces_edges, backFaces_edges r c hr1]
  simp only [cellTop_split, cellBot_split, cellLeft_split, cellRight_split,
    cellFront_split, cellBack_split, Finset.sum_add_distrib]
  have hGH := groupH r c hr1
  have hGV := groupV r c hc1
  have hGHB := groupHB r c hr1
  have hGVB := groupVB r c hc1
  have hGP := groupP r c hr1 hc
  have hGD := (two_nsmul (∑ i in Finset.range (r - 1),
    ∑ j in Finset.range (c - 1), ({eD c i j} : Multiset (Sym2 ℕ)))).symm
  have hGDB := (two_nsmul (∑ i in Finset.range (r - 1),
    ∑ j in Finset.range (c - 1), ({eDB r c i j} : Multiset (Sym2 ℕ)))).symm
  have hGDL := (two_nsmul (∑ i in Finset.range (r - 1),
    ({eDL r c i} : Multiset (Sym2 ℕ)))).symm
  have hGDR := (two_nsmul (∑ i in Finset.range (r - 1),
    ({eDR r c i} : Multiset (Sym2 ℕ)))).symm
  have hGDF := (two_nsmul (∑ j in Finset.range (c - 1),
    ({eDF r c j} : Multiset (Sym2 ℕ)))).symm
  have hGDK := (two_nsmul (∑ j in Finset.range (c - 1),
    ({eDK r c j} : Multiset (Sym2 ℕ)))).symm
  have total := congrArg₂ (· + ·) (congrArg₂ (· + ·) (congrArg₂ (· + ·)
    (congrArg₂ (· + ·) (congrArg₂ (· + ·) (congrArg₂ (· + ·)
      (congrArg₂ (· + ·) (congrArg₂ (· + ·) (congrArg₂ (· + ·)
        (congrArg₂ (· + ·) hGH hGV) hGD) hGHB) hGVB) hGDB) hGDL) hGDR)
          hGDF) hGDK) hGP
  refine Eq.trans ?_ (Eq.trans total ?_)
  · clear total hGH hGV hGHB hGVB hGP hGD hGDB hGDL hGDR hGDF hGDK
    generalize ∑ i in Finset.range (r - 1), ∑ j in Finset.range (c - 1), ({eH c i j} : Multiset (Sym2 ℕ)) = z1
    generalize ∑ i in Finset.range (r - 1), ∑ j in Finset.range (c - 1), ({eD c i j} : Multiset (Sym2 ℕ)) = z2
    generalize ∑ i in Finset.range (r - 1), ∑ j in Finset.range (c - 1), ({eV c i j} : Multiset (Sym2 ℕ)) = z3
    generalize ∑ i in Finset.range (r - 1), ∑ j in Finset.range (c - 1), ({eV c i (j + 1)} : Multiset (Sym2 ℕ)) = z4
    generalize ∑ i in Finset.range (r - 1), ∑ j in Finset.range (c - 1), ({eH c (i + 1) j} : Multiset (Sym2 ℕ)) = z5
    generalize ∑ i in Finset.range (r - 1), ∑ j in Finset.range (c - 1), ({eVB r c i j} : Multiset (Sym2 ℕ)) = z6
    generalize ∑ i in Finset.range (r - 1), ∑ j in Finset.range (c - 1), ({eDB r c i j} : Multiset (Sym2 ℕ)) = z7
    generalize ∑ i in Finset.range (r - 1), ∑ j in Finset.range (c - 1), ({eHB r c i j} : Multiset (Sym2 ℕ)) = z8
    generalize ∑ i in Finset.range (r - 1), ∑ j in Finset.range (c - 1), ({eHB r c (i + 1) j} : Multiset (Sym2 ℕ)) = z9
    generalize ∑ i in Finset.range (r - 1), ∑ j in Finset.range (c - 1), ({eVB r c i (j + 1)} : Multiset (Sym2 ℕ)) = z10
    generalize ∑ i in Finset.range (r - 1), ({eP r c i 0} : Multiset (Sym2 ℕ)) = z11
    generalize ∑ i in Finset.range (r - 1), ({eDL r c i} : Multiset (Sym2 ℕ)) = z12
    generalize ∑ i in Finset.range (r - 1), ({eV c i 0} : Multiset (Sym2 ℕ)) = z13
    generalize ∑ i in Finset.range (r - 1), ({eVB r c i 0} : Multiset (Sym2 ℕ)) = z14
    generalize ∑ i in Finset.range (r - 1), ({eP r c (i + 1) 0} : Multiset (Sym2 ℕ)) = z15
    generalize ∑ i in Finset.range (r - 1), ({eV c i (c - 1)} : Multiset (Sym2 ℕ)) = z16
    generalize ∑ i in Finset.range (r - 1), ({eDR r c i} : Multiset (Sym2 ℕ)) = z17
    generalize ∑ i in Finset.range (r - 1), ({eP r c i (c - 1)} : Multiset (Sym2 ℕ)) = z18
    generalize ∑ i in Finset.range (r - 1), ({eP r c (i + 1) (c - 1)} : Multiset (Sym2 ℕ)) = z19
    generalize ∑ i in Finset.range (r - 1), ({eVB r c i (c - 1)} : Multiset (Sym2 ℕ)) = z20
    generalize ∑ j in Finset.range (c - 1), ({eH c 0 j} : Multiset (Sym2 ℕ)) = z21
    generalize ∑ j in Finset.range (c - 1), ({eDF r c j} : Multiset (Sym2 ℕ)) = z22
    generalize ∑ j in Finset.range (c - 1), ({eP r c 0 j} : Multiset (Sym2 ℕ)) = z23
    generalize ∑ j in Finset.range (c - 1), ({eP r c 0 (j + 1)} : Multiset (Sym2 ℕ)) = z24
    generalize ∑ j in Finset.range (c - 1), ({eHB r c 0 j} : Multiset (Sym2 ℕ)) = z25
    generalize ∑ j in Finset.range (c - 1), ({eP r c (r - 1) j} : Multiset (Sym2 ℕ)) = z26
    generalize ∑ j in Finset.range (c - 1), ({eDK r c j} : Multiset (Sym2 ℕ)) = z27
    generalize ∑ j in Finset.range (c - 1), ({eH c (r - 1) j} : Multiset (Sym2 ℕ)) = z28
    generalize ∑ j in Finset.range (c - 1), ({eHB r c (r - 1) j} : Multiset (Sym2 ℕ)) = z29
    generalize ∑ j in Finset.range (c - 1), ({eP r c (r - 1) (j + 1)} : Multiset (Sym2 ℕ)) = z30
    abel
  · clear total hGH hGV hGHB hGVB hGP hGD hGDB hGDL hGDR hGDF hGDK
    rw [meshEdgeSet]
    simp only [smul_add]
    generalize ∑ i in Finset.range r, ∑ j in Finset.range (c - 1), ({eH c i j} : Multiset (Sym2 ℕ)) = w1
    generalize ∑ i in Finset.range (r - 1), ∑ j in Finset.range c, ({eV c i j} : Multiset (Sym2 ℕ)) = w2
    generalize ∑ i in Finset.range (r - 1), ∑ j in Finset.range (c - 1), ({eD c i j} : Multiset (Sym2 ℕ)) = w3
    generalize ∑ i in Finset.range r, ∑ j in Finset.range (c - 1), ({eHB r c i j} : Multiset (Sym2 ℕ)) = w4
    generalize ∑ i in Finset.range (r - 1), ∑ j in Finset.range c, ({eVB r c i j} : Multiset (Sym2 ℕ)) = w5
    generalize ∑ i in Finset.range (r - 1), ∑ j in Finset.range (c - 1), ({eDB r c i j} : Multiset (Sym2 ℕ)) = w6
    generalize ∑ i in Finset.range (r - 1), ({eDL r c i} : Multiset (Sym2 ℕ)) = w7
    generalize ∑ i in Finset.range (r - 1), ({eDR r c i} : Multiset (Sym2 ℕ)) = w8
    generalize ∑ j in Finset.range (c - 1), ({eDF r c j} : Multiset (Sym2 ℕ)) = w9
    generalize ∑ j in Finset.range (c - 1), ({eDK r c j} : Multiset (Sym2 ℕ)) = w10
    generalize ∑ i in Finset.range r, ({eP r c i 0} : Multiset (Sym2 ℕ)) = w11
    generalize ∑ i in Finset.range r, ({eP r c i (c - 1)} : Multiset (Sym2 ℕ)) = w12
    generalize ∑ j in Finset.range (c - 2), ({eP r c 0 (j + 1)} : Multiset (Sym2 ℕ)) = w13
    generalize ∑ j in Finset.range (c - 2), ({eP r c (r - 1) (j + 1)} : Multiset (Sym2 ℕ)) = w14
    abel

theorem index_inj {c i j i2 j2 : ℕ} (hj : j < c) (hj2 : j2 < c)
    (h : i * c + j = i2 * c + j2) : i = i2 ∧ j = j2 := by
  rcases Nat.lt_trichotomy i i2 with hlt | rfl | hlt
  · exfalso
    have f1 : (i + 1) * c ≤ i2 * c := Nat.mul_le_mul_right c hlt
    have f2 : (i + 1) * c = i * c + c := by ring
    omega
  · omega
  · exfalso
    have f1 : (i2 + 1) * c ≤ i * c := Nat.mul_le_mul_right c hlt
    have f2 : (i2 + 1) * c = i2 * c + c := by ring
    omega

theorem succ_mul_fact (i k : ℕ) : (i + 1) * k = i * k + k := by ring

theorem topIx_lt {r c i j : ℕ} (hi : i < r) (hj : j < c) :
    topIx c i j < r * c := ix_lt hi hj

theorem botIx_ge (r c i j : ℕ) : r * c ≤ botIx r c i j := by
  unfold botIx
  omega

theorem e_ne_ll_h {N a b u v : ℕ} (ha : a < N) (hb : b < N) (hu : N ≤ u) :
    e a b ≠ e u v := by
  intro heq
  rw [e_eq_iff] at heq
  rcases heq with ⟨h1, h2⟩ | ⟨h1, h2⟩ <;> omega

theorem e_ne_ll_h2 {N a b u v : ℕ} (ha : a < N) (hb : b < N) (hv : N ≤ v) :
    e a b ≠ e u v := by
  intro heq
  rw [e_eq_iff] at heq
  rcases heq with ⟨h1, h2⟩ | ⟨h1, h2⟩ <;> omega

theorem e_ne_hh_l {N a b u v : ℕ} (ha : N ≤ a) (hb : N ≤ b) (hu : u < N) :
    e a b ≠ e u v := by
  intro heq
  rw [e_eq_iff] at heq
  rcases heq with ⟨h1, h2⟩ | ⟨h1, h2⟩ <;> omega

theorem e_ne_hh_l2 {N a b u v : ℕ} (ha : N ≤ a) (hb : N ≤ b) (hv : v < N) :
    e a b ≠ e u v := by
  intro heq
  rw [e_eq_iff] at heq
  rcases heq with ⟨h1, h2⟩ | ⟨h1, h2⟩ <;> omega

theorem e_mixed_ne {N x y u v : ℕ} (hx : x < N) (hy : N ≤ y) (hu : u < N)
    (hv : N ≤ v) (hne : x = u → y = v → False) : e x y ≠ e u v := by
  intro heq
  rw [e_eq_iff] at heq
  rcases heq with ⟨h1, h2⟩ | ⟨h1, h2⟩
  · exact hne h1 h2
  · omega

theorem e_mixed_ne2 {N x y u v : ℕ} (hx : x < N) (hy : N ≤ y) (hu : N ≤ u)
    (hv : v < N) (hne : x = v → y = u → False) : e x y ≠ e u v := by
  intro heq
  rw [e_eq_iff] at heq
  rcases heq with ⟨h1, h2⟩ | ⟨h1, h2⟩
  · omega
  · exact hne h1 h2

theorem e_mixed_inj {N x y u v : ℕ} (hx : x < N) (hy : N ≤ y) (hu : u < N)
    (hv : N ≤ v) (h : e x y = e u v) : x = u ∧ y = v := by
  rw [e_eq_iff] at h
  rcases h with ⟨h1, h2⟩ | ⟨h1, h2⟩
  · exact ⟨h1, h2⟩
  · constructor <;> omega

theorem dbl (a b : ℕ) (g : ℕ → ℕ → Sym2 ℕ) :
    (∑ i in Finset.range a, ∑ j in Finset.range b,
        ({g i j} : Multiset (Sym2 ℕ))) =
      ∑ p in Finset.range a ×ˢ Finset.range b,
        ({g p.1 p.2} : Multiset (Sym2 ℕ)) :=
  (Finset.sum_product' _ _ _).symm

theorem nodup_single {ι : Type} (s : Finset ι) (g : ι → Sym2 ℕ)
    (hg : ∀ i ∈ s, ∀ j ∈ s, g i = g j → i = j) :
    (∑ i in s, ({g i} : Multiset (Sym2 ℕ))).Nodup := by
  induction s using Finset.cons_induction with
  | empty => simp
  | cons a t hat ih =>
      rw [Finset.sum_cons, Multiset.nodup_add]
      refine ⟨Multiset.nodup_singleton _, ?_, ?_⟩
      · exact ih fun i hi j hj =>
          hg i (Finset.mem_cons_of_mem hi) j (Finset.mem_cons_of_mem hj)
      · rw [Multiset.singleton_disjoint, Finset.mem_sum]
        rintro ⟨i, hi, hmem⟩
        rw [Multiset.mem_singleton] at hmem
        have := hg a (Finset.mem_cons_self a t) i
          (Finset.mem_cons_of_mem hi) hmem
        subst this
        exact hat hi

theorem disj_single {ι κ : Type} (s : Finset ι) (t : Finset κ)
    (g : ι → Sym2 ℕ) (h : κ → Sym2 ℕ)
    (hne : ∀ i ∈ s, ∀ j ∈ t, g i ≠ h j) :
    Disjoint (∑ i in s, ({g i} : Multiset (Sym2 ℕ)))
      (∑ j in t, ({h j} : Multiset (Sym2 ℕ))) := by
  rw [Multiset.disjoint_left]
  intro a ha hb
  rw [Finset.mem_sum] at ha hb
  rcases ha with ⟨i, hi, hai⟩
  rcases hb with ⟨j, hj, haj⟩
  rw [Multiset.mem_singleton] at hai haj
  exact hne i hi j hj (hai.symm.trans haj)

theorem eH_ne_eV {c i j i2 j2 : ℕ} (hc : 2 ≤ c) : eH c i j ≠ eV c i2 j2 := by
  intro heq
  unfold eH eV topIx at heq
  rw [e_eq_iff] at heq
  have f1 : (i2 + 1) * c = i2 * c + c := succ_mul_fact i2 c
  rcases heq with ⟨h1, h2⟩ | ⟨h1, h2⟩ <;> omega

theorem eH_ne_eD {c i j i2 j2 : ℕ} (hc : 2 ≤ c) (hj : j < c - 1)
    (hj2 : j2 < c - 1) : eH c i j ≠ eD c i2 j2 := by
  intro heq
  unfold eH eD topIx at heq
  rw [e_eq_iff] at heq
  have f1 : (i2 + 1) * c = i2 * c + c := succ_mul_fact i2 c
  rcases heq with ⟨h1, h2⟩ | ⟨h1, h2⟩
  · have hc2 : c = 2 := by omega
    subst hc2
    omega
  · omega

theorem eV_ne_eD {c i j i2 j2 : ℕ} (hc : 2 ≤ c) : eV c i j ≠ eD c i2 j2 := by
  intro heq
  unfold eV eD topIx at heq
  rw [e_eq_iff] at heq
  have f1 : (i + 1) * c = i * c + c := succ_mul_fact i c
  have f2 : (i2 + 1) * c = i2 * c + c := succ_mul_fact i2 c
  rcases heq with ⟨h1, h2⟩ | ⟨h1, h2⟩ <;> omega

theorem eH_inj {c i j i2 j2 : ℕ} (hj : j < c - 1) (hj2 : j2 < c - 1)
    (h : eH c i j = eH c i2 j2) : i = i2 ∧ j = j2 := by
  unfold eH topIx at h
  rw [e_eq_iff] at h
  rcases h with ⟨h1, h2⟩ | ⟨h1, h2⟩
  · exact index_inj (by omega) (by omega) h1
  · omega

theorem eV_inj {c i j i2 j2 : ℕ} (hj : j < c) (hj2 : j2 < c)
    (h : eV c i j = eV c i2 j2) : i = i2 ∧ j = j2 := by
  unfold eV topIx at h
  rw [e_eq_iff] at h
  have f1 : (i + 1) * c = i * c + c := succ_mul_fact i c
  have f2 : (i2 + 1) * c = i2 * c + c := succ_mul_fact i2 c
  rcases h with ⟨h1, h2⟩ | ⟨h1, h2⟩
  · exact index_inj hj hj2 h1
  · exfalso
    omega

theorem eD_inj {c i j i2 j2 : ℕ} (hj : j < c - 1) (hj2 : j2 < c - 1)
    (h : eD c i j = eD c i2 j2) : i = i2 ∧ j = j2 := by
  unfold eD topIx at h
  rw [e_eq_iff] at h
  have f1 : (i + 1) * c = i * c + c := succ_mul_fact i c
  have f2 : (i2 + 1) * c = i2 * c + c := succ_mul_fact i2 c
  rcases h with ⟨h1, h2⟩ | ⟨h1, h2⟩
  · have := index_inj (show j + 1 < c by omega) (show j2 + 1 < c by omega)
      (show i * c + (j + 1) = i2 * c + (j2 + 1) by omega)
    omega
  · exfalso
    omega

theorem eHB_ne_eVB {r c i j i2 j2 : ℕ} (hc : 2 ≤ c) :
    eHB r c i j ≠ eVB r c i2 j2 := by
  intro heq
  unfold eHB eVB botIx at heq
  rw [e_eq_iff] at heq
  have f1 : (i2 + 1) * c = i2 * c + c := succ_mul_fact i2 c
  rcases heq with ⟨h1, h2⟩ | ⟨h1, h2⟩ <;> omega

theorem eHB_ne_eDB {r c i j i2 j2 : ℕ} (hc : 2 ≤ c) (hj : j < c - 1)
    (hj2 : j2 < c - 1) : eHB r c i j ≠ eDB r c i2 j2 := by
  intro heq
  unfold eHB eDB botIx at heq
  rw [e_eq_iff] at heq
  have f1 : (i2 + 1) * c = i2 * c + c := succ_mul_fact i2 c
  rcases heq with ⟨h1, h2⟩ | ⟨h1, h2⟩
  · have hc2 : c = 2 := by omega
    subst hc2
    omega
  · omega

theorem eVB_ne_eDB {r c i j i2 j2 : ℕ} (hc : 2 ≤ c) :
    eVB r c i j ≠ eDB r c i2 j2 := by
  intro heq
  unfold eVB eDB botIx at heq
  rw [e_eq_iff] at heq
  have f1 : (i + 1) * c = i * c + c := succ_mul_fact i c
  have f2 : (i2 + 1) * c = i2 * c + c := succ_mul_fact i2 c
  rcases heq with ⟨h1, h2⟩ | ⟨h1, h2⟩ <;> omega

theorem eHB_inj {r c i j i2 j2 : ℕ} (hj : j < c - 1) (hj2 : j2 < c - 1)
    (h : eHB r c i j = eHB r c i2 j2) : i = i2 ∧ j = j2 := by
  unfold eHB botIx at h
  rw [e_eq_iff] at h
  rcases h with ⟨h1, h2⟩ | ⟨h1, h2⟩
  · exact index_inj (show j < c by omega) (show j2 < c by omega)
      (show i * c + j = i2 * c + j2 by omega)
  · omega

theorem eVB_inj {r c i j i2 j2 : ℕ} (hj : j < c) (hj2 : j2 < c)
    (h : eVB r c i j = eVB r c i2 j2) : i = i2 ∧ j = j2 := by
  unfold eVB botIx at h
  rw [e_eq_iff] at h
  have f1 : (i + 1) * c = i * c + c := succ_mul_fact i c
  have f2 : (i2 + 1) * c = i2 * c + c := succ_mul_fact i2 c
  rcases h with ⟨h1, h2⟩ | ⟨h1, h2⟩
  · exact index_inj hj hj2 (show i * c + j = i2 * c + j2 by omega)
  · exfalso
    omega

theorem eDB_inj {r c i j i2 j2 : ℕ} (hj : j < c - 1) (hj2 : j2 < c - 1)
    (h : eDB r c i j = eDB r c i2 j2) : i = i2 ∧ j = j2 := by
  unfold eDB botIx at h
  rw [e_eq_iff] at h
  have f1 : (i + 1) * c = i * c + c := succ_mul_fact i c
  have f2 : (i2 + 1) * c = i2 * c + c := succ_mul_fact i2 c
  rcases h with ⟨h1, h2⟩ | ⟨h1, h2⟩
  · have := index_inj (show j + 1 < c by omega) (show j2 + 1 < c by omega)
      (show i * c + (j + 1) = i2 * c + (j2 + 1) by omega)
    omega
  · exfalso
    omega

theorem e_mixed_ne3 {N x y u v : ℕ} (hx : N ≤ x) (hy : y < N) (hu : u < N)
    (hv : N ≤ v) (hne : x = v → y = u → False) : e x y ≠ e u v := by
  intro heq
  rw [e_eq_iff] at heq
  rcases heq with ⟨h1, h2⟩ | ⟨h1, h2⟩
  · omega
  · exact hne h1 h2

theorem e_mixed_ne4 {N x y u v : ℕ} (hx : N ≤ x) (hy : y < N) (hu : N ≤ u)
    (hv : v < N) (hne : x = u → y = v → False) : e x y ≠ e u v := by
  intro heq
  rw [e_eq_iff] at heq
  rcases heq with ⟨h1, h2⟩ | ⟨h1, h2⟩
  · exact hne h1 h2
  · omega

theorem nodup_topLayer (r c : ℕ) (hc : 2 ≤ c) :
    ((∑ p in Finset.range r ×ˢ Finset.range (c - 1),
        ({eH c p.1 p.2} : Multiset (Sym2 ℕ))) +
      (∑ p in Finset.range (r - 1) ×ˢ Finset.range c,
        ({eV c p.1 p.2} : Multiset (Sym2 ℕ))) +
      (∑ p in Finset.range (r - 1) ×ˢ Finset.range (c - 1),
        ({eD c p.1 p.2} : Multiset (Sym2 ℕ)))).Nodup := by
  refine Multiset.nodup_add.2 ⟨Multiset.nodup_add.2 ⟨?_, ?_, ?_⟩, ?_,
    Multiset.disjoint_add_left.2 ⟨?_, ?_⟩⟩
  · refine nodup_single _ _ fun p hp q hq hpq => ?_
    simp only [Finset.mem_product, Finset.mem_range] at hp hq
    have h := eH_inj hp.2 hq.2 hpq
    exact Prod.ext h.1 h.2
  · refine nodup_single _ _ fun p hp q hq hpq => ?_
    simp only [Finset.mem_product, Finset.mem_range] at hp hq
    have h := eV_inj hp.2 hq.2 hpq
    exact Prod.ext h.1 h.2
  · exact disj_single _ _ _ _ fun p _ q _ => eH_ne_eV hc
  · refine nodup_single _ _ fun p hp q hq hpq => ?_
    simp only [Finset.mem_product, Finset.mem_range] at hp hq
    have h := eD_inj hp.2 hq.2 hpq
    exact Prod.ext h.1 h.2
  · refine disj_single _ _ _ _ fun p hp q hq => ?_
    simp only [Finset.mem_product, Finset.mem_range] at hp hq
    exact eH_ne_eD hc hp.2 hq.2
  · exact disj_single _ _ _ _ fun p _ q _ => eV_ne_eD hc

theorem nodup_botLayer (r c : ℕ) (hc : 2 ≤ c) :
    ((∑ p in Finset.range r ×ˢ Finset.range (c - 1),
        ({eHB r c p.1 p.2} : Multiset (Sym2 ℕ))) +
      (∑ p in Finset.range (r - 1) ×ˢ Finset.range c,
        ({eVB r c p.1 p.2} : Multiset (Sym2 ℕ))) +
      (∑ p in Finset.range (r - 1) ×ˢ Finset.range (c - 1),
        ({eDB r c p.1 p.2} : Multiset (Sym2 ℕ)))).Nodup := by
  refine Multiset.nodup_add.2 ⟨Multiset.nodup_add.2 ⟨?_, ?_, ?_⟩, ?_,
    Multiset.disjoint_add_left.2 ⟨?_, ?_⟩⟩
  · refine nodup_single _ _ fun p hp q hq hpq => ?_
    simp only [Finset.mem_product, Finset.mem_range] at hp hq
    have h := eHB_inj hp.2 hq.2 hpq
    exact Prod.ext h.1 h.2
  · refine nodup_single _ _ fun p hp q hq hpq => ?_
    simp only [Finset.mem_product, Finset.mem_range] at hp hq
    have h := eVB_inj hp.2 hq.2 hpq
    exact Prod.ext h.1 h.2
  · exact disj_single _ _ _ _ fun p _ q _ => eHB_ne_eVB hc
  · refine nodup_single _ _ fun p hp q hq hpq => ?_
    simp only [Finset.mem_product, Finset.mem_range] at hp hq
    have h := eDB_inj hp.2 hq.2 hpq
    exact Prod.ext h.1 h.2
  · refine disj_single _ _ _ _ fun p hp q hq => ?_
    simp only [Finset.mem_product, Finset.mem_range] at hp hq
    exact eHB_ne_eDB hc hp.2 hq.2
  · exact disj_single _ _ _ _ fun p _ q _ => eVB_ne_eDB hc

theorem top_layer_mem {r c : ℕ} {p : Sym2 ℕ}
    (hp : p ∈ (∑ p in Finset.range r ×ˢ Finset.range (c - 1),
        ({eH c p.1 p.2} : Multiset (Sym2 ℕ))) +
      (∑ p in Finset.range (r - 1) ×ˢ Finset.range c,
        ({eV c p.1 p.2} : Multiset (Sym2 ℕ))) +
      (∑ p in Finset.range (r - 1) ×ˢ Finset.range (c - 1),
        ({eD c p.1 p.2} : Multiset (Sym2 ℕ)))) :
    ∃ a b, p = e a b ∧ a < r * c ∧ b < r * c := by
  rw [Multiset.mem_add, Multiset.mem_add] at hp
  rcases hp with (hp | hp) | hp <;>
    [skip; skip; skip] <;>
    · rw [Finset.mem_sum] at hp
      obtain ⟨q, hq, hmem⟩ := hp
      rw [Multiset.mem_singleton] at hmem
      simp only [Finset.mem_product, Finset.mem_range] at hq
      subst hmem
      first
        | exact ⟨_, _, rfl, topIx_lt hq.1 (by omega),
            topIx_lt hq.1 (by omega)⟩
        | exact ⟨_, _, rfl, topIx_lt (by omega) (by omega),
            topIx_lt (by omega) (by omega)⟩

theorem e_mixed_inj2 {N x y u v : ℕ} (hx : N ≤ x) (hy : y < N) (hu : N ≤ u)
    (hv : v < N) (h : e x y = e u v) : x = u ∧ y = v := by
  rw [e_eq_iff] at h
  rcases h with ⟨h1, h2⟩ | ⟨h1, h2⟩
  · exact ⟨h1, h2⟩
  · omega

theorem nodup_mixLayer (r c : ℕ) (hr : 2 ≤ r) (hc : 2 ≤ c) :
    ((∑ i in Finset.range (r - 1), ({eDL r c i} : Multiset (Sym2 ℕ))) +
      (∑ i in Finset.range (r - 1), ({eDR r c i} : Multiset (Sym2 ℕ))) +
      (∑ j in Finset.range (c - 1), ({eDF r c j} : Multiset (Sym2 ℕ))) +
      (∑ j in Finset.range (c - 1), ({eDK r c j} : Multiset (Sym2 ℕ))) +
      (∑ i in Finset.range r, ({eP r c i 0} : Multiset (Sym2 ℕ))) +
      (∑ i in Finset.range r, ({eP r c i (c - 1)} : Multiset (Sym2 ℕ))) +
      (∑ j in Finset.range (c - 2), ({eP r c 0 (j + 1)} : Multiset (Sym2 ℕ))) +
      (∑ j in Finset.range (c - 2),
        ({eP r c (r - 1) (j + 1)} : Multiset (Sym2 ℕ)))).Nodup := by
  have n7 := nodup_single (Finset.range (r - 1)) (fun i => eDL r c i)
    (fun i hi i2 hi2 heq => by
      simp only [Finset.mem_range] at hi hi2
      have h := e_mixed_inj2 (botIx_ge _ _ _ _) (topIx_lt (by omega) (by omega))
        (botIx_ge _ _ _ _) (topIx_lt (by omega) (by omega)) heq
      unfold topIx at h
      have h2 := index_inj (by omega) (by omega) h.2
      omega)
  have n8 := nodup_single (Finset.range (r - 1)) (fun i => eDR r c i)
    (fun i hi i2 hi2 heq => by
      simp only [Finset.mem_range] at hi hi2
      have h := e_mixed_inj (topIx_lt (by omega) (by omega)) (botIx_ge _ _ _ _)
        (topIx_lt (by omega) (by omega)) (botIx_ge _ _ _ _) heq
      unfold topIx at h
      have h2 := index_inj (by omega) (by omega) h.1
      omega)
  have n9 := nodup_single (Finset.range (c - 1)) (fun j => eDF r c j)
    (fun j hj j2 hj2 heq => by
      simp only [Finset.mem_range] at hj hj2
      have h := e_mixed_inj (topIx_lt (by omega) (by omega)) (botIx_ge _ _ _ _)
        (topIx_lt (by omega) (by omega)) (botIx_ge _ _ _ _) heq
      unfold topIx at h
      omega)
  have n10 := nodup_single (Finset.range (c - 1)) (fun j => eDK r c j)
    (fun j hj j2 hj2 heq => by
      simp only [Finset.mem_range] at hj hj2
      have h := e_mixed_inj2 (botIx_ge _ _ _ _) (topIx_lt (by omega) (by omega))
        (botIx_ge _ _ _ _) (topIx_lt (by omega) (by omega)) heq
      unfold topIx at h
      omega)
  have n11 := nodup_single (Finset.range r) (fun i => eP r c i 0)
    (fun i hi i2 hi2 heq => by
      simp only [Finset.mem_range] at hi hi2
      have h := e_mixed_inj (topIx_lt (by omega) (by omega)) (botIx_ge _ _ _ _)
        (topIx_lt (by omega) (by omega)) (botIx_ge _ _ _ _) heq
      unfold topIx at h
      have h2 := index_inj (by omega) (by omega) h.1
      omega)
  have n12 := nodup_single (Finset.range r) (fun i => eP r c i (c - 1))
    (fun i hi i2 hi2 heq => by
      simp only [Finset.mem_range] at hi hi2
      have h := e_mixed_inj (topIx_lt (by omega) (by omega)) (botIx_ge _ _ _ _)
        (topIx_lt (by omega) (by omega)) (botIx_ge _ _ _ _) heq
      unfold topIx at h
      have h2 := index_inj (by omega) (by omega) h.1
      omega)
  have n13 := nodup_single (Finset.range (c - 2)) (fun j => eP r c 0 (j + 1))
    (fun j hj j2 hj2 heq => by
      simp only [Finset.mem_range] at hj hj2
      have h := e_mixed_inj (topIx_lt (by omega) (by omega)) (botIx_ge _ _ _ _)
        (topIx_lt (by omega) (by omega)) (botIx_ge _ _ _ _) heq
      unfold topIx at h
      omega)
  have n14 := nodup_single (Finset.range (c - 2))
    (fun j => eP r c (r - 1) (j + 1))
    (fun j hj j2 hj2 heq => by
      simp only [Finset.mem_range] at hj hj2
      have h := e_mixed_inj (topIx_lt (by omega) (by omega)) (botIx_ge _ _ _ _)
        (topIx_lt (by omega) (by omega)) (botIx_ge _ _ _ _) heq
      unfold topIx at h
      omega)
  have d78 := disj_single (Finset.range (r - 1)) (Finset.range (r - 1))
    (fun i => eDL r c i) (fun i => eDR r c i) (fun i hi i2 hi2 => by
      simp only [Finset.mem_range] at hi hi2
      refine e_mixed_ne3 (botIx_ge _ _ _ _) (topIx_lt (by omega) (by omega))
        (topIx_lt (by omega) (by omega)) (botIx_ge _ _ _ _) fun h1 h2 => ?_
      unfold topIx at h2
      have h3 := index_inj (by omega) (by omega) h2
      omega)
  have d79 := disj_single (Finset.range (r - 1)) (Finset.range (c - 1))
    (fun i => eDL r c i) (fun j => eDF r c j) (fun i hi j hj => by
      simp only [Finset.mem_range] at hi hj
      refine e_mixed_ne3 (botIx_ge _ _ _ _) (topIx_lt (by omega) (by omega))
        (topIx_lt (by omega) (by omega)) (botIx_ge _ _ _ _) fun h1 h2 => ?_
      unfold topIx at h2
      have h3 := index_inj (by omega) (by omega) h2
      omega)
  have d710 := disj_single (Finset.range (r - 1)) (Finset.range (c - 1))
    (fun i => eDL r c i) (fun j => eDK r c j) (fun i hi j hj => by
      simp only [Finset.mem_range] at hi hj
      refine e_mixed_ne4 (botIx_ge _ _ _ _) (topIx_lt (by omega) (by omega))
        (botIx_ge _ _ _ _) (topIx_lt (by omega) (by omega)) fun h1 h2 => ?_
      unfold topIx at h2
      have h3 := index_inj (by omega) (by omega) h2
      omega)
  have d711 := disj_single (Finset.range (r - 1)) (Finset.range r)
    (fun i => eDL r c i) (fun i => eP r c i 0) (fun i hi i2 hi2 => by
      simp only [Finset.mem_range] at hi hi2
      refine e_mixed_ne3 (botIx_ge _ _ _ _) (topIx_lt (by omega) (by omega))
        (topIx_lt (by omega) (by omega)) (botIx_ge _ _ _ _) fun h1 h2 => ?_
      unfold topIx at h2
      have h3 := index_inj (by omega) (by omega) h2
      obtain ⟨h4, -⟩ := h3
      subst h4
      unfold botIx at h1
      have f := succ_mul_fact i c
      omega)
  have d712 := disj_single (Finset.range (r - 1)) (Finset.range r)
    (fun i => eDL r c i) (fun i => eP r c i (c - 1)) (fun i hi i2 hi2 => by
      simp only [Finset.mem_range] at hi hi2
      refine e_mixed_ne3 (botIx_ge _ _ _ _) (topIx_lt (by omega) (by omega))
        (topIx_lt (by omega) (by omega)) (botIx_ge _ _ _ _) fun h1 h2 => ?_
      unfold topIx at h2
      have h3 := index_inj (by omega) (by omega) h2
      omega)
  have d713 := disj_single (Finset.range (r - 1)) (Finset.range (c - 2))
    (fun i => eDL r c i) (fun j => eP r c 0 (j + 1)) (fun i hi j hj => by
      simp only [Finset.mem_range] at hi hj
      refine e_mixed_ne3 (botIx_ge _ _ _ _) (topIx_lt (by omega) (by omega))
        (topIx_lt (by omega) (by omega)) (botIx_ge _ _ _ _) fun h1 h2 => ?_
      unfold topIx at h2
      have h3 := index_inj (by omega) (by omega) h2
      omega)
  have d714 := disj_single (Finset.range (r - 1)) (Finset.range (c - 2))
    (fun i => eDL r c i) (fun j => eP r c (r - 1) (j + 1)) (fun i hi j hj => by
      simp only [Finset.mem_range] at hi hj
      refine e_mixed_ne3 (botIx_ge _ _ _ _) (topIx_lt (by omega) (by omega))
        (topIx_lt (by omega) (by omega)) (botIx_ge _ _ _ _) fun h1 h2 => ?_
      unfold topIx at h2
      have h3 := index_inj (by omega) (by omega) h2
      omega)
  have d89 := disj_single (Finset.range (r - 1)) (Finset.range (c - 1))
    (fun i => eDR r c i) (fun j => eDF r c j) (fun i hi j hj => by
      simp only [Finset.mem_range] at hi hj
      refine e_mixed_ne (topIx_lt (by omega) (by omega)) (botIx_ge _ _ _ _)
        (topIx_lt (by omega) (by omega)) (botIx_ge _ _ _ _) fun h1 h2 => ?_
      unfold topIx at h1
      have h3 := index_inj (by omega) (by omega) h1
      omega)
  have d810 := disj_single (Finset.range (r - 1)) (Finset.range (c - 1))
    (fun i => eDR r c i) (fun j => eDK r c j) (fun i hi j hj => by
      simp only [Finset.mem_range] at hi hj
      refine e_mixed_ne2 (topIx_lt (by omega) (by omega)) (botIx_ge _ _ _ _)
        (botIx_ge _ _ _ _) (topIx_lt (by omega) (by omega)) fun h1 h2 => ?_
      unfold topIx at h1
      have h3 := index_inj (by omega) (by omega) h1
      obtain ⟨h4, h5⟩ := h3
      rw [← h4] at h2
      unfold botIx at h2
      have f := succ_mul_fact i c
      omega)
  have d811 := disj_single (Finset.range (r - 1)) (Finset.range r)
    (fun i => eDR r c i) (fun i => eP r c i 0) (fun i hi i2 hi2 => by
      simp only [Finset.mem_range] at hi hi2
      refine e_mixed_ne (topIx_lt (by omega) (by omega)) (botIx_ge _ _ _ _)
        (topIx_lt (by omega) (by omega)) (botIx_ge _ _ _ _) fun h1 h2 => ?_
      unfold topIx at h1
      have h3 := index_inj (by omega) (by omega) h1
      omega)
  have d812 := disj_single (Finset.range (r - 1)) (Finset.range r)
    (fun i => eDR r c i) (fun i => eP r c i (c - 1)) (fun i hi i2 hi2 => by
      simp only [Finset.mem_range] at hi hi2
      refine e_mixed_ne (topIx_lt (by omega) (by omega)) (botIx_ge _ _ _ _)
        (topIx_lt (by omega) (by omega)) (botIx_ge _ _ _ _) fun h1 h2 => ?_
      unfold topIx at h1
      have h3 := index_inj (by omega) (by omega) h1
      obtain ⟨h4, -⟩ := h3
      subst h4
      unfold botIx at h2
      have f := succ_mul_fact i c
      omega)
  have d813 := disj_single (Finset.range (r - 1)) (Finset.range (c - 2))
    (fun i => eDR r c i) (fun j => eP r c 0 (j + 1)) (fun i hi j hj => by
      simp only [Finset.mem_range] at hi hj
      refine e_mixed_ne (topIx_lt (by omega) (by omega)) (botIx_ge _ _ _ _)
        (topIx_lt (by omega) (by omega)) (botIx_ge _ _ _ _) fun h1 h2 => ?_
      unfold topIx at h1
      have h3 := index_inj (by omega) (by omega) h1
      omega)
  have d814 := disj_single (Finset.range (r - 1)) (Finset.range (c - 2))
    (fun i => eDR r c i) (fun j => eP r c (r - 1) (j + 1)) (fun i hi j hj => by
      simp only [Finset.mem_range] at hi hj
      refine e_mixed_ne (topIx_lt (by omega) (by omega)) (botIx_ge _ _ _ _)
        (topIx_lt (by omega) (by omega)) (botIx_ge _ _ _ _) fun h1 h2 => ?_
      unfold topIx at h1
      have h3 := index_inj (by omega) (by omega) h1
      obtain ⟨h4, h5⟩ := h3
      rw [← h4] at h2
      unfold botIx at h2
      have f := succ_mul_fact i c
      omega)
  have d910 := disj_single (Finset.range (c - 1)) (Finset.range (c - 1))
    (fun j => eDF r c j) (fun j => eDK r c j) (fun j hj j2 hj2 => by
      simp only [Finset.mem_range] at hj hj2
      refine e_mixed_ne2 (topIx_lt (by omega) (by omega)) (botIx_ge _ _ _ _)
        (botIx_ge _ _ _ _) (topIx_lt (by omega) (by omega)) fun h1 h2 => ?_
      unfold topIx at h1
      have h3 := index_inj (by omega) (by omega) h1
      omega)
  have d911 := disj_single (Finset.range (c - 1)) (Finset.range r)
    (fun j => eDF r c j) (fun i => eP r c i 0) (fun j hj i hi => by
      simp only [Finset.mem_range] at hj hi
      refine e_mixed_ne (topIx_lt (by omega) (by omega)) (botIx_ge _ _ _ _)
        (topIx_lt (by omega) (by omega)) (botIx_ge _ _ _ _) fun h1 h2 => ?_
      unfold topIx at h1
      have h3 := index_inj (by omega) (by omega) h1
      omega)
  have d912 := disj_single (Finset.range (c - 1)) (Finset.range r)
    (fun j => eDF r c j) (fun i => eP r c i (c - 1)) (fun j hj i hi => by
      simp only [Finset.mem_range] at hj hi
      refine e_mixed_ne (topIx_lt (by omega) (by omega)) (botIx_ge _ _ _ _)
        (topIx_lt (by omega) (by omega)) (botIx_ge _ _ _ _) fun h1 h2 => ?_
      unfold topIx at h1
      have h3 := index_inj (by omega) (by omega) h1
      obtain ⟨h4, h5⟩ := h3
      subst h4
      unfold botIx at h2
      omega)
  have d913 := disj_single (Finset.range (c - 1)) (Finset.range (c - 2))
    (fun j => eDF r c j) (fun j => eP r c 0 (j + 1)) (fun j hj j2 hj2 => by
      simp only [Finset.mem_range] at hj hj2
      refine e_mixed_ne (topIx_lt (by omega) (by omega)) (botIx_ge _ _ _ _)
        (topIx_lt (by omega) (by omega)) (botIx_ge _ _ _ _) fun h1 h2 => ?_
      unfold topIx at h1
      unfold botIx at h2
      omega)
  have d914 := disj_single (Finset.range (c - 1)) (Finset.range (c - 2))
    (fun j => eDF r c j) (fun j => eP r c (r - 1) (j + 1)) (fun j hj j2 hj2 => by
      simp only [Finset.mem_range] at hj hj2
      refine e_mixed_ne (topIx_lt (by omega) (by omega)) (botIx_ge _ _ _ _)
        (topIx_lt (by omega) (by omega)) (botIx_ge _ _ _ _) fun h1 h2 => ?_
      unfold topIx at h1
      have h3 := index_inj (by omega) (by omega) h1
      omega)
  have d1011 := disj_single (Finset.range (c - 1)) (Finset.range r)
    (fun j => eDK r c j) (fun i => eP r c i 0) (fun j hj i hi => by
      simp only [Finset.mem_range] at hj hi
      refine e_mixed_ne3 (botIx_ge _ _ _ _) (topIx_lt (by omega) (by omega))
        (topIx_lt (by omega) (by omega)) (botIx_ge _ _ _ _) fun h1 h2 => ?_
      unfold topIx at h2
      have h3 := index_inj (by omega) (by omega) h2
      omega)
  have d1012 := disj_single (Finset.range (c - 1)) (Finset.range r)
    (fun j => eDK r c j) (fun i => eP r c i (c - 1)) (fun j hj i hi => by
      simp only [Finset.mem_range] at hj hi
      refine e_mixed_ne3 (botIx_ge _ _ _ _) (topIx_lt (by omega) (by omega))
        (topIx_lt (by omega) (by omega)) (botIx_ge _ _ _ _) fun h1 h2 => ?_
      unfold topIx at h2
      have h3 := index_inj (by omega) (by omega) h2
      obtain ⟨h4, h5⟩ := h3
      subst h4
      unfold botIx at h1
      omega)
  have d1013 := disj_single (Finset.range (c - 1)) (Finset.range (c - 2))
    (fun j => eDK r c j) (fun j => eP r c 0 (j + 1)) (fun j hj j2 hj2 => by
      simp only [Finset.mem_range] at hj hj2
      refine e_mixed_ne3 (botIx_ge _ _ _ _) (topIx_lt (by omega) (by omega))
        (topIx_lt (by omega) (by omega)) (botIx_ge _ _ _ _) fun h1 h2 => ?_
      unfold topIx at h2
      have h3 := index_inj (by omega) (by omega) h2
      omega)
  have d1014 := disj_single (Finset.range (c - 1)) (Finset.range (c - 2))
    (fun j => eDK r c j) (fun j => eP r c (r - 1) (j + 1)) (fun j hj j2 hj2 => by
      simp only [Finset.mem_range] at hj hj2
      refine e_mixed_ne3 (botIx_ge _ _ _ _) (topIx_lt (by omega) (by omega))
        (topIx_lt (by omega) (by omega)) (botIx_ge _ _ _ _) fun h1 h2 => ?_
      unfold topIx at h2
      unfold botIx at h1
      omega)
  have d1112 := disj_single (Finset.range r) (Finset.range r)
    (fun i => eP r c i 0) (fun i => eP r c i (c - 1)) (fun i hi i2 hi2 => by
      simp only [Finset.mem_range] at hi hi2
      refine e_mixed_ne (topIx_lt (by omega) (by omega)) (botIx_ge _ _ _ _)
        (topIx_lt (by omega) (by omega)) (botIx_ge _ _ _ _) fun h1 h2 => ?_
      unfold topIx at h1
      have h3 := index_inj (by omega) (by omega) h1
      omega)
  have d1113 := disj_single (Finset.range r) (Finset.range (c - 2))
    (fun i => eP r c i 0) (fun j => eP r c 0 (j + 1)) (fun i hi j hj => by
      simp only [Finset.mem_range] at hi hj
      refine e_mixed_ne (topIx_lt (by omega) (by omega)) (botIx_ge _ _ _ _)
        (topIx_lt (by omega) (by omega)) (botIx_ge _ _ _ _) fun h1 h2 => ?_
      unfold topIx at h1
      have h3 := index_inj (by omega) (by omega) h1
      omega)
  have d1114 := disj_single (Finset.range r) (Finset.range (c - 2))
    (fun i => eP r c i 0) (fun j => eP r c (r - 1) (j + 1)) (fun i hi j hj => by
      simp only [Finset.mem_range] at hi hj
      refine e_mixed_ne (topIx_lt (by omega) (by omega)) (botIx_ge _ _ _ _)
        (topIx_lt (by omega) (by omega)) (botIx_ge _ _ _ _) fun h1 h2 => ?_
      unfold topIx at h1
      have h3 := index_inj (by omega) (by omega) h1
      omega)
  have d1213 := disj_single (Finset.range r) (Finset.range (c - 2))
    (fun i => eP r c i (c - 1)) (fun j => eP r c 0 (j + 1)) (fun i hi j hj => by
      simp only [Finset.mem_range] at hi hj
      refine e_mixed_ne (topIx_lt (by omega) (by omega)) (botIx_ge _ _ _ _)
        (topIx_lt (by omega) (by omega)) (botIx_ge _ _ _ _) fun h1 h2 => ?_
      unfold topIx at h1
      have h3 := index_inj (by omega) (by omega) h1
      omega)
  have d1214 := disj_single (Finset.range r) (Finset.range (c - 2))
    (fun i => eP r c i (c - 1)) (fun j => eP r c (r - 1) (j + 1))
    (fun i hi j hj => by
      simp only [Finset.mem_range] at hi hj
      refine e_mixed_ne (topIx_lt (by omega) (by omega)) (botIx_ge _ _ _ _)
        (topIx_lt (by omega) (by omega)) (botIx_ge _ _ _ _) fun h1 h2 => ?_
      unfold topIx at h1
      have h3 := index_inj (by omega) (by omega) h1
      omega)
  have d1314 := disj_single (Finset.range (c - 2)) (Finset.range (c - 2))
    (fun j => eP r c 0 (j + 1)) (fun j => eP r c (r - 1) (j + 1))
    (fun j hj j2 hj2 => by
      simp only [Finset.mem_range] at hj hj2
      refine e_mixed_ne (topIx_lt (by omega) (by omega)) (botIx_ge _ _ _ _)
        (topIx_lt (by omega) (by omega)) (botIx_ge _ _ _ _) fun h1 h2 => ?_
      unfold topIx at h1
      have h3 := index_inj (by omega) (by omega) h1
      omega)
  refine Multiset.nodup_add.2 ⟨Multiset.nodup_add.2 ⟨Multiset.nodup_add.2
    ⟨Multiset.nodup_add.2 ⟨Multiset.nodup_add.2 ⟨Multiset.nodup_add.2
    ⟨Multiset.nodup_add.2 ⟨n7, n8, d78⟩, n9,
      Multiset.disjoint_add_left.2 ⟨d79, d89⟩⟩, n10,
      Multiset.disjoint_add_left.2 ⟨Multiset.disjoint_add_left.2
        ⟨d710, d810⟩, d910⟩⟩, n11,
      Multiset.disjoint_add_left.2 ⟨Multiset.disjoint_add_left.2
        ⟨Multiset.disjoint_add_left.2 ⟨d711, d811⟩, d911⟩, d1011⟩⟩, n12,
      Multiset.disjoint_add_left.2 ⟨Multiset.disjoint_add_left.2
        ⟨Multiset.disjoint_add_left.2 ⟨Multiset.disjoint_add_left.2
          ⟨d712, d812⟩, d912⟩, d1012⟩, d1112⟩⟩, n13,
      Multiset.disjoint_add_left.2 ⟨Multiset.disjoint_add_left.2
        ⟨Multiset.disjoint_add_left.2 ⟨Multiset.disjoint_add_left.2
          ⟨Multiset.disjoint_add_left.2 ⟨d713, d813⟩, d913⟩, d1013⟩,
          d1113⟩, d1213⟩⟩, n14,
      Multiset.disjoint_add_left.2 ⟨Multiset.disjoint_add_left.2
        ⟨Multiset.disjoint_add_left.2 ⟨Multiset.disjoint_add_left.2
          ⟨Multiset.disjoint_add_left.2 ⟨Multiset.disjoint_add_left.2
            ⟨d714, d814⟩, d914⟩, d1014⟩, d1114⟩, d1214⟩, d1314⟩⟩

theorem mix_layer_mem {r c : ℕ} {p : Sym2 ℕ} (hr : 2 ≤ r) (hc : 2 ≤ c)
    (hp : p ∈ (∑ i in Finset.range (r - 1),
        ({eDL r c i} : Multiset (Sym2 ℕ))) +
      (∑ i in Finset.range (r - 1), ({eDR r c i} : Multiset (Sym2 ℕ))) +
      (∑ j in Finset.range (c - 1), ({eDF r c j} : Multiset (Sym2 ℕ))) +
      (∑ j in Finset.range (c - 1), ({eDK r c j} : Multiset (Sym2 ℕ))) +
      (∑ i in Finset.range r, ({eP r c i 0} : Multiset (Sym2 ℕ))) +
      (∑ i in Finset.range r, ({eP r c i (c - 1)} : Multiset (Sym2 ℕ))) +
      (∑ j in Finset.range (c - 2), ({eP r c 0 (j + 1)} : Multiset (Sym2 ℕ))) +
      (∑ j in Finset.range (c - 2),
        ({eP r c (r - 1) (j + 1)} : Multiset (Sym2 ℕ)))) :
    ∃ a b, p = e a b ∧
      ((a < r * c ∧ r * c ≤ b) ∨ (r * c ≤ a ∧ b < r * c)) := by
  rw [Multiset.mem_add, Multiset.mem_add, Multiset.mem_add, Multiset.mem_add,
    Multiset.mem_add, Multiset.mem_add, Multiset.mem_add] at hp
  rcases hp with ((((((hp | hp) | hp) | hp) | hp) | hp) | hp) | hp <;>
    · rw [Finset.mem_sum] at hp
      obtain ⟨q, hq, hmem⟩ := hp
      rw [Multiset.mem_singleton] at hmem
      simp only [Finset.mem_range] at hq
      subst hmem
      first
        | exact ⟨_, _, rfl, Or.inr ⟨botIx_ge _ _ _ _,
            topIx_lt (by omega) (by omega)⟩⟩
        | exact ⟨_, _, rfl, Or.inl ⟨topIx_lt (by omega) (by omega),
            botIx_ge _ _ _ _⟩⟩

theorem bot_layer_mem {r c : ℕ} {p : Sym2 ℕ}
    (hp : p ∈ (∑ p in Finset.range r ×ˢ Finset.range (c - 1),
        ({eHB r c p.1 p.2} : Multiset (Sym2 ℕ))) +
      (∑ p in Finset.range (r - 1) ×ˢ Finset.range c,
        ({eVB r c p.1 p.2} : Multiset (Sym2 ℕ))) +
      (∑ p in Finset.range (r - 1) ×ˢ Finset.range (c - 1),
        ({eDB r c p.1 p.2} : Multiset (Sym2 ℕ)))) :
    ∃ a b, p = e a b ∧ r * c ≤ a ∧ r * c ≤ b := by
  rw [Multiset.mem_add, Multiset.mem_add] at hp
  rcases hp with (hp | hp) | hp <;>
    · rw [Finset.mem_sum] at hp
      obtain ⟨q, hq, hmem⟩ := hp
      rw [Multiset.mem_singleton] at hmem
      subst hmem
      exact ⟨_, _, rfl, botIx_ge _ _ _ _, botIx_ge _ _ _ _⟩

theorem meshEdgeSet_nodup (r c : ℕ) (hr : 2 ≤ r) (hc : 2 ≤ c) :
    (meshEdgeSet r c).Nodup := by
  have key : meshEdgeSet r c =
      ((∑ p in Finset.range r ×ˢ Finset.range (c - 1),
          ({eH c p.1 p.2} : Multiset (Sym2 ℕ))) +
        (∑ p in Finset.range (r - 1) ×ˢ Finset.range c,
          ({eV c p.1 p.2} : Multiset (Sym2 ℕ))) +
        (∑ p in Finset.range (r - 1) ×ˢ Finset.range (c - 1),
          ({eD c p.1 p.2} : Multiset (Sym2 ℕ)))) +
      ((∑ p in Finset.range r ×ˢ Finset.range (c - 1),
          ({eHB r c p.1 p.2} : Multiset (Sym2 ℕ))) +
        (∑ p in Finset.range (r - 1) ×ˢ Finset.range c,
          ({eVB r c p.1 p.2} : Multiset (Sym2 ℕ))) +
        (∑ p in Finset.range (r - 1) ×ˢ Finset.range (c - 1),
          ({eDB r c p.1 p.2} : Multiset (Sym2 ℕ)))) +
      ((∑ i in Finset.range (r - 1), ({eDL r c i} : Multiset (Sym2 ℕ))) +
        (∑ i in Finset.range (r - 1), ({eDR r c i} : Multiset (Sym2 ℕ))) +
        (∑ j in Finset.range (c - 1), ({eDF r c j} : Multiset (Sym2 ℕ))) +
        (∑ j in Finset.range (c - 1), ({eDK r c j} : Multiset (Sym2 ℕ))) +
        (∑ i in Finset.range r, ({eP r c i 0} : Multiset (Sym2 ℕ))) +
        (∑ i in Finset.range r, ({eP r c i (c - 1)} : Multiset (Sym2 ℕ))) +
        (∑ j in Finset.range (c - 2),
          ({eP r c 0 (j + 1)} : Multiset (Sym2 ℕ))) +
        (∑ j in Finset.range (c - 2),
          ({eP r c (r - 1) (j + 1)} : Multiset (Sym2 ℕ)))) := by
    rw [meshEdgeSet]
    simp only [dbl]
    generalize (∑ p in Finset.range r ×ˢ Finset.range (c - 1),
      ({eH c p.1 p.2} : Multiset (Sym2 ℕ))) = a1
    generalize (∑ p in Finset.range (r - 1) ×ˢ Finset.range c,
      ({eV c p.1 p.2} : Multiset (Sym2 ℕ))) = a2
    generalize (∑ p in Finset.range (r - 1) ×ˢ Finset.range (c - 1),
      ({eD c p.1 p.2} : Multiset (Sym2 ℕ))) = a3
    generalize (∑ p in Finset.range r ×ˢ Finset.range (c - 1),
      ({eHB r c p.1 p.2} : Multiset (Sym2 ℕ))) = a4
    generalize (∑ p in Finset.range (r - 1) ×ˢ Finset.range c,
      ({eVB r c p.1 p.2} : Multiset (Sym2 ℕ))) = a5
    generalize (∑ p in Finset.range (r - 1) ×ˢ Finset.range (c - 1),
      ({eDB r c p.1 p.2} : Multiset (Sym2 ℕ))) = a6
    generalize (∑ i in Finset.range (r - 1),
      ({eDL r c i} : Multiset (Sym2 ℕ))) = a7
    generalize (∑ i in Finset.range (r - 1),
      ({eDR r c i} : Multiset (Sym2 ℕ))) = a8
    generalize (∑ j in Finset.range (c - 1),
      ({eDF r c j} : Multiset (Sym2 ℕ))) = a9
    generalize (∑ j in Finset.range (c - 1),
      ({eDK r c j} : Multiset (Sym2 ℕ))) = a10
    generalize (∑ i in Finset.range r,
      ({eP r c i 0} : Multiset (Sym2 ℕ))) = a11
    generalize (∑ i in Finset.range r,
      ({eP r c i (c - 1)} : Multiset (Sym2 ℕ))) = a12
    generalize (∑ j in Finset.range (c - 2),
      ({eP r c 0 (j + 1)} : Multiset (Sym2 ℕ))) = a13
    generalize (∑ j in Finset.range (c - 2),
      ({eP r c (r - 1) (j + 1)} : Multiset (Sym2 ℕ))) = a14
    simp only [add_assoc]
  rw [key]
  refine Multiset.nodup_add.2 ⟨Multiset.nodup_add.2 ⟨nodup_topLayer r c hc,
    nodup_botLayer r c hc, ?_⟩, nodup_mixLayer r c hr hc,
    Multiset.disjoint_add_left.2 ⟨?_, ?_⟩⟩
  · rw [Multiset.disjoint_left]
    intro p hpT hpB
    obtain ⟨a, b, rfl, ha, hb⟩ := top_layer_mem hpT
    obtain ⟨u, v, heq, hu, hv⟩ := bot_layer_mem hpB
    rw [e_eq_iff] at heq
    rcases heq with ⟨h1, h2⟩ | ⟨h1, h2⟩ <;> omega
  · rw [Multiset.disjoint_left]
    intro p hpT hpX
    obtain ⟨a, b, rfl, ha, hb⟩ := top_layer_mem hpT
    obtain ⟨u, v, heq, hmix⟩ := mix_layer_mem hr hc hpX
    rw [e_eq_iff] at heq
    rcases hmix with ⟨hu, hv⟩ | ⟨hu, hv⟩ <;>
      rcases heq with ⟨h1, h2⟩ | ⟨h1, h2⟩ <;> omega
  · rw [Multiset.disjoint_left]
    intro p hpB hpX
    obtain ⟨a, b, rfl, ha, hb⟩ := bot_layer_mem hpB
    obtain ⟨u, v, heq, hmix⟩ := mix_layer_mem hr hc hpX
    rw [e_eq_iff] at heq
    rcases hmix with ⟨hu, hv⟩ | ⟨hu, hv⟩ <;>
      rcases heq with ⟨h1, h2⟩ | ⟨h1, h2⟩ <;> omega

theorem heightmapFaces_distinct (r c : ℕ) (hr : 2 ≤ r) (hc : 2 ≤ c) :
    ∀ f ∈ heightmapFaces r c,
      f.1 ≠ f.2.1 ∧ f.2.1 ≠ f.2.2 ∧ f.2.2 ≠ f.1 := by
  have h1 : 2 * c ≤ r * c := Nat.mul_le_mul_right c hr
  intro f hf
  rw [heightmapFaces] at hf
  simp only [List.mem_append] at hf
  rcases hf with ((((hf | hf) | hf) | hf) | hf) | hf <;>
    simp only [topFaces, bottomFaces, leftFaces, rightFaces, frontFaces,
      backFaces, List.mem_flatMap, List.mem_range, List.mem_cons,
      List.not_mem_nil, or_false] at hf
  · obtain ⟨i, hi, j, hj, hf⟩ := hf
    rcases hf with rfl | rfl <;> refine ⟨?_, ?_, ?_⟩ <;> dsimp only <;> omega
  · obtain ⟨i, hi, j, hj, hf⟩ := hf
    rcases hf with rfl | rfl <;> refine ⟨?_, ?_, ?_⟩ <;> dsimp only <;> omega
  · obtain ⟨i, hi, hf⟩ := hf
    rcases hf with rfl | rfl <;> refine ⟨?_, ?_, ?_⟩ <;> dsimp only <;> omega
  · obtain ⟨i, hi, hf⟩ := hf
    rcases hf with rfl | rfl <;> refine ⟨?_, ?_, ?_⟩ <;> dsimp only <;> omega
  · obtain ⟨j, hj, hf⟩ := hf
    rcases hf with rfl | rfl <;> refine ⟨?_, ?_, ?_⟩ <;> dsimp only <;> omega
  · obtain ⟨j, hj, hf⟩ := hf
    rcases hf with rfl | rfl <;> refine ⟨?_, ?_, ?_⟩ <;> dsimp only <;> omega

/-- C1 (amended): for every grid with at least 2 rows and 2 columns, the mesh
returned by `heightmap_to_mesh` is watertight in the undirected sense: each
face has three pairwise-distinct vertex indices, and every undirected edge of
the face list occurs in exactly two of the face traversals.  The original
claim's further assertion — that the two incident faces traverse each shared
edge in opposite directions — is false; see
`heightmap_mesh_watertight_counterexample`. -/
theorem heightmap_mesh_watertight (g : Grid) (s b : ℚ)
    (hr : 2 ≤ g.rows) (hc : 2 ≤ g.cols) :
    (∀ f ∈ (heightmap_to_mesh g s b).2,
        f.1 ≠ f.2.1 ∧ f.2.1 ≠ f.2.2 ∧ f.2.2 ≠ f.1) ∧
      ∀ p ∈ undirectedEdges (heightmap_to_mesh g s b).2,
        Multiset.count p
          (↑(undirectedEdges (heightmap_to_mesh g s b).2) :
            Multiset (Sym2 ℕ)) = 2 := by
  constructor
  · exact heightmapFaces_distinct g.rows g.cols hr hc
  · intro p hp
    have hE : ((undirectedEdges (heightmap_to_mesh g s b).2 : List (Sym2 ℕ)) :
        Multiset (Sym2 ℕ)) = 2 • meshEdgeSet g.rows g.cols :=
      edge_multiset_eq g.rows g.cols hr hc
    have hpos : 0 < Multiset.count p
        (↑(undirectedEdges (heightmap_to_mesh g s b).2) :
          Multiset (Sym2 ℕ)) :=
      Multiset.count_pos.2 (Multiset.mem_coe.2 hp)
    rw [hE, Multiset.count_nsmul] at hpos ⊢
    have hle := Multiset.nodup_iff_count_le_one.1
      (meshEdgeSet_nodup g.rows g.cols hr hc) p
    omega

/-- C1 counterexample to the opposite-direction and outward-wall-normal
parts, on the mesh of a 2×2 grid of height 1.  First: the undirected edge
between vertices 0 and 2 is traversed by both of its incident faces in the
same direction — the directed edge (2, 0) occurs twice in the face traversals
while the reversed directed edge (0, 2) never occurs.  Second: face number 4
of the mesh is the left-wall triangle (0, 4, 2); the left wall lies in the
plane x = 0 and the grid interior is at x > 0, yet the face's cross-product
normal is (1, 0, 0), pointing toward the interior rather than away from it. -/
theorem heightmap_mesh_watertight_counterexample :
    (directedEdges (heightmap_to_mesh ⟨2, 2, fun _ _ => 0⟩ 1 0).2).count
        (2, 0) = 2 ∧
      (directedEdges (heightmap_to_mesh ⟨2, 2, fun _ _ => 0⟩ 1 0).2).count
        (0, 2) = 0 ∧
      (heightmap_to_mesh ⟨2, 2, fun _ _ => 1⟩ 1 0).2[4]? = some (0, 4, 2) ∧
      cross
        (vsub
          (((heightmap_to_mesh ⟨2, 2, fun _ _ => 1⟩ 1 0).1).getD 4 (0, 0, 0))
          (((heightmap_to_mesh ⟨2, 2, fun _ _ => 1⟩ 1 0).1).getD 0 (0, 0, 0)))
        (vsub
          (((heightmap_to_mesh ⟨2, 2, fun _ _ => 1⟩ 1 0).1).getD 2 (0, 0, 0))
          (((heightmap_to_mesh ⟨2, 2, fun _ _ => 1⟩ 1 0).1).getD 0 (0, 0, 0)))
        = (1, 0, 0) := by
  refine ⟨rfl, rfl, rfl, ?_⟩
  norm_num [heightmap_to_mesh, topVertices, bottomVertices, List.range_succ,
    cross, vsub]

/-- Witness: the amended C1 theorem applied to a concrete 2×2 grid and the
undirected edge between vertices 0 and 1. -/
theorem heightmap_mesh_watertight_witness :
    Multiset.count (e 0 1)
      (↑(undirectedEdges (heightmap_to_mesh ⟨2, 2, fun _ _ => 0⟩ 1 0).2) :
        Multiset (Sym2 ℕ)) = 2 :=
  (heightmap_mesh_watertight ⟨2, 2, fun _ _ => 0⟩ 1 0 (Nat.le_refl 2)
    (Nat.le_refl 2)).2 (e 0 1) (by decide)

end Converter
